import Mathlib

/-!
# Agora runtime values: conversions, arithmetic and comparison dispatch

A shallow embedding of `runtime/val.go`, `runtime/nil.go` and `runtime/string.go`.

Conventions of the embedding:

* a Go `panic(x)` is the `Except.error` of a `Panic` payload; a normal return is `Except.ok`;
* the execution context `ctx` is threaded through the Go code without being inspected,
  so it is left out;
* `int` and `int64` are 64 bits wide;
* Go text is a Lean `String` (byte sequences that are not valid UTF-8 are outside the
  embedding); the lexicographic order of Lean strings, by code point, is the byte-wise order
  of their UTF-8 encodings;
* objects, functions and host values carry an identity, and what the host attached to it
  (meta-methods, host conversions, the dynamic Go type of a host value) is read from a
  `World`. Objects and functions are references. A host value is any other implementation
  of `Val`, of a dynamic type that Go may be unable to compare with `==`.
  Meta-methods are functions of their arguments; the world does not change during one
  dispatcher call.
-/

namespace Agora

/-! ## Host numbers -/

/-- Model of a Go `float64`: not-a-number, an infinity, or a finite magnitude. Finite
magnitudes are rationals (every finite `float64` is one; the embedding admits more inputs
than the hardware has). The two signed zeros are one value, as they are for Go's `==`. -/
inductive F64 where
  | nan
  | inf (neg : Bool)
  | fin (q : ℚ)
  deriving DecidableEq

namespace F64

/-- Go `==` on `float64`: a NaN equals nothing, itself included. -/
def eq : F64 → F64 → Bool
  | fin p, fin q => decide (p = q)
  | inf a, inf b => a == b
  | _, _ => false

/-- Go `<` on `float64`: false as soon as one side is a NaN. -/
def lt : F64 → F64 → Bool
  | fin p, fin q => decide (p < q)
  | fin _, inf b => !b
  | inf a, fin _ => a
  | inf a, inf b => a && !b
  | _, _ => false

/-- Go unary `-` on `float64`. -/
def neg : F64 → F64
  | nan => nan
  | inf a => inf (!a)
  | fin q => fin (-q)

/-- Truncation toward zero of a rational. -/
def trunc (q : ℚ) : Int := Int.tdiv q.num q.den

/-- Go conversion `int64(f)`: truncation toward zero when the truncated value fits in 64
bits. Outside that range (and for NaN and the infinities) Go leaves the result to the
implementation; the value here is the one amd64 produces. -/
def toInt64 : F64 → Int
  | fin q => if -(2 : Int) ^ 63 ≤ trunc q ∧ trunc q < (2 : Int) ^ 63 then trunc q else -(2 : Int) ^ 63
  | _ => -(2 : Int) ^ 63

/-- Go conversion `float64(i)` of an `int64`. Exact up to 2^53 in magnitude, and exact on the
remainder of two integer-valued doubles, which is where the dispatcher uses it. -/
def ofInt64 (i : Int) : F64 := fin i

end F64

/-! ## Values and errors -/

/-- The `Val` interface with its seven kinds of implementation. `object` and `func` carry
the identity of the reference, `custom` the identity of the host value. -/
inductive Val where
  | string (s : String)
  | number (f : F64)
  | bool (b : Bool)
  | func (id : Nat)
  | object (id : Nat)
  | nil
  | custom (id : Nat)
  deriving DecidableEq

/-- Go `type TypeError string`. -/
structure TypeError where
  text : String
  deriving DecidableEq

/-- Go `func (te TypeError) Error() string`. -/
def TypeError.Error (te : TypeError) : String := te.text

/-- Go `func NewTypeError(t1, t2, op string) TypeError`. -/
def NewTypeError (t1 t2 op : String) : TypeError :=
  if t2 ≠ "" then
    ⟨"type error: " ++ op ++ " not allowed with types " ++ t1 ++ " and " ++ t2⟩
  else
    ⟨"type error: " ++ op ++ " not allowed with type " ++ t1⟩

/-- The two failures of `strconv` parsing (`strconv.ErrSyntax`, `strconv.ErrRange`). -/
inductive NumErr where
  | syntaxErr
  | rangeErr
  deriving DecidableEq

/-- Payload of a Go panic raised in this layer. -/
inductive Panic where
  /-- Payload `runtime.TypeError`. -/
  | typeError (te : TypeError)
  /-- Payload `*strconv.NumError`: function name, input text and cause. -/
  | numError (fn : String) (num : String) (err : NumErr)
  /-- A Go run-time error, such as an integer division by zero. -/
  | runtimeError (msg : String)
  /-- Any other payload raised by host code. -/
  | host (msg : String)
  deriving DecidableEq

/-- Whether a panic payload is a `TypeError`. -/
def Panic.isTypeError : Panic → Bool
  | .typeError _ => true
  | _ => false

/-- Go `func Type(v Val) string` (the name `Type` is reserved in Lean). -/
def TypeOf (v : Val) : String :=
  match v with
  | .string _ => "string"
  | .number _ => "number"
  | .bool _ => "bool"
  | .func _ => "func"
  | .object _ => "object"
  | v => if v = Val.nil then "nil" else "custom"

/-- The variant of a value (section 3 of the specification), as an index. -/
def Val.variant : Val → Nat
  | .nil => 0
  | .bool _ => 1
  | .number _ => 2
  | .string _ => 3
  | .object _ => 4
  | .func _ => 5
  | .custom _ => 6

/-! ## The host world -/

/-- What `Native` hands to the host, a Go `interface{}`. -/
inductive Native where
  | nil
  | bool (b : Bool)
  | float (f : F64)
  | string (s : String)
  | ref (id : Nat)
  deriving DecidableEq

/-- Go `==` on two `interface{}` values produced by `Native`. -/
def Native.eq : Native → Native → Bool
  | .nil, .nil => true
  | .bool a, .bool b => a == b
  | .float a, .float b => F64.eq a b
  | .string a, .string b => a == b
  | .ref a, .ref b => a == b
  | _, _ => false

/-- Everything the dispatchers obtain from outside `val.go`, `nil.go` and `string.go`:
the floating-point unit, the value of a floating-point literal, the rendering of a number,
the meta-methods stored in objects, the `Converter` methods of objects, functions and host
values, and the dynamic Go types of host values. -/
structure World where
  /-- Go `+` on `float64`. -/
  fadd : F64 → F64 → F64
  /-- Go `-` on `float64`. -/
  fsub : F64 → F64 → F64
  /-- Go `*` on `float64`. -/
  fmul : F64 → F64 → F64
  /-- Go `/` on `float64`. -/
  fdiv : F64 → F64 → F64
  /-- The `float64` nearest to the number that a well-formed floating-point literal denotes,
  as `strconv.ParseFloat(s, 64)` computes it; `none` when that number is out of range. -/
  floatValue : String → Option F64
  /-- Decimal rendering of a number. -/
  formatFloat : F64 → String
  /-- The callable an object stores under a reserved name, if it stores one. -/
  metaMethod : Nat → String → Option (List Val → Except Panic Val)
  /-- Method `Int` of an object, function or host value. -/
  hostInt : Val → Except Panic Int
  /-- Method `Float` of an object, function or host value. -/
  hostFloat : Val → Except Panic F64
  /-- Method `String` of an object, function or host value. -/
  hostString : Val → Except Panic String
  /-- Method `Bool` of an object, function or host value. -/
  hostBool : Val → Except Panic Bool
  /-- The dynamic Go type of a host (custom) value, by identity of the value. -/
  hostType : Nat → Nat
  /-- Whether Go can compare two values of a dynamic type with `==`: not so for a slice, map
  or function type, nor for a struct or array type that contains one. -/
  typeComparable : Nat → Bool

/-- One invocation of a meta-method by a dispatcher: the object, the reserved name and the
arguments. -/
structure Call where
  obj : Nat
  name : String
  args : List Val
  deriving DecidableEq

/-- What a dispatcher call amounts to: its result (a value or a panic) and the meta-method
invocations it made, in order. -/
structure Outcome (α : Type) where
  result : Except Panic α
  calls : List Call

/-- A dispatcher returning `v` without having invoked a meta-method. -/
def Outcome.ret {α : Type} (v : α) : Outcome α := ⟨.ok v, []⟩

/-- A dispatcher panicking with `p` without having invoked a meta-method. -/
def Outcome.fail {α : Type} (p : Panic) : Outcome α := ⟨.error p, []⟩

/-- A dispatcher that only ran conversions: their result, no meta-method invoked. -/
def Outcome.pure {α : Type} (r : Except Panic α) : Outcome α := ⟨r, []⟩

/-- Modelled from the spec: `Object.callMetaMethod`, whose file `object.go` is not among
the sources. Section 4.5: the object is probed for a callable under the reserved name; when
there is none the probe answers "not applicable" (Go `ok = false`, here `none`), otherwise
the callable is invoked with the arguments and what it yields is the answer. -/
def callMetaMethod (w : World) (o : Nat) (nm : String) (args : List Val) :
    Option (Except Panic Val) :=
  match w.metaMethod o nm with
  | none => none
  | some f => some (f args)

/-- Go type assertion `v.(Object)`. -/
def asObject (v : Val) : Except Panic Nat :=
  match v with
  | .object o => .ok o
  | _ => .error (.runtimeError "interface conversion: runtime.Val is not runtime.Object")

/-! ## strconv.ParseInt -/

/-- Largest `uint64`. -/
def maxUint64 : Nat := 2 ^ 64 - 1

/-- The digit loop of Go `strconv.ParseUint(s, 10, 64)`: `n` is the value read so far. -/
def parseUintLoop : List Char → Nat → Except NumErr Nat
  | [], n => .ok n
  | c :: cs, n =>
    if '0' ≤ c ∧ c ≤ '9' then
      if n ≥ maxUint64 / 10 + 1 then .error .rangeErr
      else
        let n1 := n * 10 + (c.toNat - '0'.toNat)
        if n1 > maxUint64 then .error .rangeErr
        else parseUintLoop cs n1
    else .error .syntaxErr

/-- Go `strconv.ParseUint(s, 10, 64)`. -/
def ParseUint (s : List Char) : Except NumErr Nat :=
  if s = [] then .error .syntaxErr else parseUintLoop s 0

/-- Sign handling and range check of Go `strconv.ParseInt`, after the sign is picked off. -/
def parseIntSigned (sign : Bool) (digits : List Char) : Except NumErr Int :=
  match ParseUint digits with
  | .error .syntaxErr => .error .syntaxErr
  | .error .rangeErr => .error .rangeErr
  | .ok un =>
    if !sign ∧ un ≥ 2 ^ 63 then .error .rangeErr
    else if sign ∧ un > 2 ^ 63 then .error .rangeErr
    else if sign then .ok (-(un : Int)) else .ok (un : Int)

/-- Go `strconv.ParseInt(s, 10, 0)` on a 64-bit platform. -/
def ParseInt (s : String) : Except NumErr Int :=
  match s.toList with
  | [] => .error .syntaxErr
  | c :: cs =>
    if c = '+' then parseIntSigned false cs
    else if c = '-' then parseIntSigned true cs
    else parseIntSigned false (c :: cs)

/-! ## strconv.ParseFloat -/

/-- Go `commonPrefixLenIgnoreCase(s, prefix)` of `strconv`: the length of the longest common
prefix, upper-case ASCII letters of `s` being lowered first. -/
def commonPrefixLen : List Char → List Char → Nat
  | c :: cs, p :: ps =>
    let c1 := if 'A' ≤ c ∧ c ≤ 'Z' then Char.ofNat (c.toNat + 32) else c
    if c1 = p then commonPrefixLen cs ps + 1 else 0
  | _, _ => 0

/-- The case `'i', 'I'` of Go `special` in `strconv`: a prefix "inf" or "infinity" in any
case, after `nsign` sign characters. -/
def specialInf (neg : Bool) (nsign : Nat) (s : List Char) : Option (F64 × Nat) :=
  let n := commonPrefixLen s "infinity".toList
  let n1 := if 3 < n ∧ n < 8 then 3 else n
  if n1 = 3 ∨ n1 = 8 then some (.inf neg, nsign + n1) else none

/-- Go `special(s)` of `strconv`: the value and the length of a leading "inf", "infinity"
(possibly signed) or "nan", in any case. -/
def special (s : List Char) : Option (F64 × Nat) :=
  match s with
  | [] => none
  | c :: cs =>
    if c = '+' ∨ c = '-' then specialInf (c = '-') 1 cs
    else if c = 'i' ∨ c = 'I' then specialInf false 0 (c :: cs)
    else if c = 'n' ∨ c = 'N' then
      (if commonPrefixLen (c :: cs) "nan".toList = 3 then some (.nan, 3) else none)
    else none

/-- A letter that is a hexadecimal digit, in either case. -/
def isHexLetter (c : Char) : Bool := ('a' ≤ c ∧ c ≤ 'f') ∨ ('A' ≤ c ∧ c ≤ 'F')

/-- The loop of Go `underscoreOK` in `strconv`; `saw` is the class of the last character:
`'^'` at the beginning, `'0'` for a digit, `'_'` for an underscore, `'!'` for anything else. -/
def underscoreLoop (hex : Bool) : List Char → Char → Bool
  | [], saw => saw ≠ '_'
  | c :: cs, saw =>
    if ('0' ≤ c ∧ c ≤ '9') ∨ (hex = true ∧ isHexLetter c = true) then underscoreLoop hex cs '0'
    else if c = '_' then (if saw ≠ '0' then false else underscoreLoop hex cs '_')
    else if saw = '_' then false
    else underscoreLoop hex cs '!'

/-- Go `underscoreOK(s)` of `strconv`: underscores only separate digits, or follow a base
prefix. -/
def underscoreOK (s : List Char) : Bool :=
  let s1 := match s with
    | c :: cs => if c = '-' ∨ c = '+' then cs else s
    | [] => s
  match s1 with
  | a :: b :: rest =>
    if a = '0' ∧ (b = 'b' ∨ b = 'B' ∨ b = 'o' ∨ b = 'O' ∨ b = 'x' ∨ b = 'X') then
      underscoreLoop (b = 'x' ∨ b = 'X') rest '0'
    else underscoreLoop false s1 '^'
  | _ => underscoreLoop false s1 '^'

/-- The mantissa loop of Go `readFloat` in `strconv`: what is left of the text, whether a
digit was seen, whether an underscore was seen. -/
def mantissaLoop (hex : Bool) : List Char → Bool → Bool → Bool → List Char × Bool × Bool
  | [], _, sawdigits, underscores => ([], sawdigits, underscores)
  | c :: cs, sawdot, sawdigits, underscores =>
    if c = '_' then mantissaLoop hex cs sawdot sawdigits true
    else if c = '.' then
      (if sawdot then (c :: cs, sawdigits, underscores)
       else mantissaLoop hex cs true sawdigits underscores)
    else if '0' ≤ c ∧ c ≤ '9' then mantissaLoop hex cs sawdot true underscores
    else if hex = true ∧ isHexLetter c = true then mantissaLoop hex cs sawdot true underscores
    else (c :: cs, sawdigits, underscores)

/-- The exponent loop of Go `readFloat`: digits and underscores. -/
def exponentLoop : List Char → Bool → List Char × Bool
  | [], underscores => ([], underscores)
  | c :: cs, underscores =>
    if '0' ≤ c ∧ c ≤ '9' then exponentLoop cs underscores
    else if c = '_' then exponentLoop cs true
    else (c :: cs, underscores)

/-- The end of Go `readFloat`: the number of characters read, unless underscores were seen
and are misplaced in what was read. -/
def readFloatEnd (s rest : List Char) (underscores : Bool) : Option Nat :=
  let i := s.length - rest.length
  if underscores = true ∧ underscoreOK (s.take i) = false then none else some i

/-- The exponent part of Go `readFloat`, entered with what the mantissa loop left. -/
def readFloatExponent (s : List Char) (hex : Bool) (rest : List Char) (underscores : Bool) :
    Option Nat :=
  match rest with
  | e :: afterE =>
    if (hex = false ∧ (e = 'e' ∨ e = 'E')) ∨ (hex = true ∧ (e = 'p' ∨ e = 'P')) then
      match afterE with
      | [] => none
      | d :: afterSign =>
        let digits := if d = '+' ∨ d = '-' then afterSign else afterE
        match digits with
        | [] => none
        | f :: _ =>
          if '0' ≤ f ∧ f ≤ '9' then
            let r := exponentLoop digits underscores
            readFloatEnd s r.1 r.2
          else none
    else if hex = true then none
    else readFloatEnd s rest underscores
  | [] => if hex = true then none else readFloatEnd s [] underscores

/-- The syntax of Go `readFloat(s)` in `strconv` (Go 1.13 and later): the number of
characters of the longest floating-point literal that starts the text, `none` (Go `ok =
false`) when there is none. A literal is an optional sign, then a decimal mantissa
(digits with an optional point) with an optional exponent `e`, or a hexadecimal mantissa
after `0x` with a mandatory exponent `p`. The value is left to the `World`. -/
def readFloat (s : List Char) : Option Nat :=
  match s with
  | [] => none
  | c :: cs =>
    let s1 := if c = '+' ∨ c = '-' then cs else s
    let hex : Bool := match s1 with
      | a :: b :: _ :: _ => a = '0' ∧ (b = 'x' ∨ b = 'X')
      | _ => false
    let s2 := if hex = true then s1.drop 2 else s1
    let m := mantissaLoop hex s2 false false false
    if m.2.1 = false then none
    else readFloatExponent s hex m.1 m.2.2

/-- Go `strconv.ParseFloat(s, 64)`: a special value or a literal that makes up the whole
text, else the syntax error; the value of a literal is the world's, and a literal out of
range gives the range error. -/
def ParseFloat (w : World) (s : String) : Except NumErr F64 :=
  match special s.toList with
  | some (val, n) => if n ≠ s.toList.length then .error .syntaxErr else .ok val
  | none =>
    match readFloat s.toList with
    | none => .error .syntaxErr
    | some n =>
      if n ≠ s.toList.length then .error .syntaxErr
      else
        match w.floatValue s with
        | none => .error .rangeErr
        | some f => .ok f

/-! ## Converters -/

/-- Go `func (s String) Int(context.Context) int64`. -/
def String_Int (s : String) : Except Panic Int :=
  match ParseInt s with
  | .error e => .error (.numError "ParseInt" s e)
  | .ok i => .ok i

/-- Go `func (s String) Float(context.Context) float64`. -/
def String_Float (w : World) (s : String) : Except Panic F64 :=
  match ParseFloat w s with
  | .error e => .error (.numError "ParseFloat" s e)
  | .ok f => .ok f

/-- Go `func (s String) String(context.Context) string`. -/
def String_String (s : String) : String := s

/-- Go `func (s String) Bool(context.Context) bool`. -/
def String_Bool (s : String) : Bool := decide (s.length > 0)

/-- Go `func (s String) Native(context.Context) interface{}`. -/
def String_Native (s : String) : Native := .string s

/-- Go `const NilString`. -/
def NilString : String := "nil"

/-- Go `func (n null) Int(context.Context) int64`. -/
def null_Int : Except Panic Int := .error (.typeError (NewTypeError (TypeOf .nil) "" "int"))

/-- Go `func (n null) Float(context.Context) float64`. -/
def null_Float : Except Panic F64 := .error (.typeError (NewTypeError (TypeOf .nil) "" "float"))

/-- Go `func (n null) String(context.Context) string`. -/
def null_String : String := NilString

/-- Go `func (n null) Bool(context.Context) bool`. -/
def null_Bool : Bool := false

/-- Go `func (n null) Native(context.Context) interface{}`. -/
def null_Native : Native := .nil

/-- Modelled from the spec: `Number.Int`, whose file `number.go` is not among the sources.
Section 4.1: the magnitude as a truncating 64-bit integer. -/
def Number_Int (f : F64) : Int := F64.toInt64 f

/-- Modelled from the spec: `Number.Float` (`number.go` is not among the sources).
Section 4.1: identity. -/
def Number_Float (f : F64) : F64 := f

/-- Modelled from the spec: `Number.Bool` (`number.go` is not among the sources).
Section 4.1: true unless exactly zero. -/
def Number_Bool (f : F64) : Bool := !(F64.eq f (.fin 0))

/-- Modelled from the spec: `Bool.Int` (`bool.go` is not among the sources). Section 4.1:
1 for true, 0 for false. -/
def Bool_Int (b : Bool) : Int := if b then 1 else 0

/-- Modelled from the spec: `Bool.Float` (`bool.go` is not among the sources). Section 4.1:
1.0 for true, 0.0 for false. -/
def Bool_Float (b : Bool) : F64 := if b then .fin 1 else .fin 0

/-- Modelled from the spec: `Bool.String` (`bool.go` is not among the sources).
Section 4.1: "true" or "false". -/
def Bool_String (b : Bool) : String := if b then "true" else "false"

/-- Modelled from the spec: `Bool.Bool` (`bool.go` is not among the sources). Section 4.1:
identity. -/
def Bool_Bool (b : Bool) : Bool := b

/-- Interface call `v.Int(ctx)`, resolved on the dynamic type of `v`. -/
def Val_Int (w : World) (v : Val) : Except Panic Int :=
  match v with
  | .string s => String_Int s
  | .number f => .ok (Number_Int f)
  | .bool b => .ok (Bool_Int b)
  | .nil => null_Int
  | v => w.hostInt v

/-- Interface call `v.Float(ctx)`, resolved on the dynamic type of `v`. -/
def Val_Float (w : World) (v : Val) : Except Panic F64 :=
  match v with
  | .string s => String_Float w s
  | .number f => .ok (Number_Float f)
  | .bool b => .ok (Bool_Float b)
  | .nil => null_Float
  | v => w.hostFloat v

/-- Interface call `v.String(ctx)`, resolved on the dynamic type of `v`. -/
def Val_String (w : World) (v : Val) : Except Panic String :=
  match v with
  | .string s => .ok (String_String s)
  | .number f => .ok (w.formatFloat f)
  | .bool b => .ok (Bool_String b)
  | .nil => .ok null_String
  | v => w.hostString v

/-- Interface call `v.Bool(ctx)`, resolved on the dynamic type of `v`. -/
def Val_Bool (w : World) (v : Val) : Except Panic Bool :=
  match v with
  | .string s => .ok (String_Bool s)
  | .number f => .ok (Number_Bool f)
  | .bool b => .ok (Bool_Bool b)
  | .nil => .ok null_Bool
  | v => w.hostBool v

/-- Interface call `v.Native(ctx)`, resolved on the dynamic type of `v`. Objects, functions
and host values hand out their own reference (section 4.4: native-handle identity). -/
def Val_Native (v : Val) : Native :=
  match v with
  | .string s => String_Native s
  | .number f => .float f
  | .bool b => .bool b
  | .nil => null_Native
  | .func i => .ref i
  | .object i => .ref i
  | .custom i => .ref i

/-! ## Arithmetic -/

/-- Go `%` on two `int64`: the remainder of the division truncated toward zero; a zero
divisor is a run-time panic. -/
def int64Rem (a b : Int) : Except Panic Int :=
  if b = 0 then .error (.runtimeError "runtime error: integer divide by zero")
  else .ok (Int.tmod a b)

/-- The statement `return Number(l.Float(ctx) <op> r.Float(ctx))` of `binaryOp`. -/
def floatOp (w : World) (f : F64 → F64 → F64) (l r : Val) : Except Panic Val :=
  match Val_Float w l with
  | .error p => .error p
  | .ok lf =>
    match Val_Float w r with
    | .error p => .error p
    | .ok rf => .ok (.number (f lf rf))

/-- The statement `return Number(l.Int(ctx) % r.Int(ctx))` of `binaryOp`. -/
def intMod (w : World) (l r : Val) : Except Panic Val :=
  match Val_Int w l with
  | .error p => .error p
  | .ok a =>
    match Val_Int w r with
    | .error p => .error p
    | .ok b =>
      match int64Rem a b with
      | .error p => .error p
      | .ok m => .ok (.number (F64.ofInt64 m))

/-- The statement `return String(l.String(ctx) + r.String(ctx))` of `binaryOp`. -/
def concat (w : World) (l r : Val) : Except Panic Val :=
  match Val_String w l with
  | .error p => .error p
  | .ok ls =>
    match Val_String w r with
    | .error p => .error p
    | .ok rs => .ok (.string (ls ++ rs))

/-- The end of `binaryOp` (val.go, lines 78 to 85): the right operand's meta-method when the
right operand is an object, else the `TypeError`. -/
def binaryOpLast (w : World) (l r : Val) (op : String) : Outcome Val :=
  let lt := TypeOf l
  let rt := TypeOf r
  let mm := "__" ++ op
  if rt = "object" then
    match asObject r with
    | .error p => .fail p
    | .ok ro =>
      match callMetaMethod w ro mm [l, .bool false] with
      | some res => ⟨res, [⟨ro, mm, [l, .bool false]⟩]⟩
      | none => .fail (.typeError (NewTypeError lt rt op))
  else .fail (.typeError (NewTypeError lt rt op))

/-- Go `func (ar defaultArithmetic) binaryOp(ctx, l, r Val, op string, allowStrings bool) Val`. -/
def binaryOp (w : World) (l r : Val) (op : String) (allowStrings : Bool) : Outcome Val :=
  let lt := TypeOf l
  let rt := TypeOf r
  let mm := "__" ++ op
  if lt = "number" ∧ rt = "number" then
    if op = "add" then .pure (floatOp w w.fadd l r)
    else if op = "sub" then .pure (floatOp w w.fsub l r)
    else if op = "mul" then .pure (floatOp w w.fmul l r)
    else if op = "div" then .pure (floatOp w w.fdiv l r)
    else if op = "mod" then .pure (intMod w l r)
    else binaryOpLast w l r op
  else if allowStrings = true ∧ lt = "string" ∧ rt = "string" then
    if op = "add" then .pure (concat w l r)
    else binaryOpLast w l r op
  else if lt = "object" then
    match asObject l with
    | .error p => .fail p
    | .ok lo =>
      match callMetaMethod w lo mm [r, .bool true] with
      | some res => ⟨res, [⟨lo, mm, [r, .bool true]⟩]⟩
      | none => binaryOpLast w l r op
  else binaryOpLast w l r op

/-- Go `func (ar defaultArithmetic) Add(ctx, l, r Val) Val`. -/
def Add (w : World) (l r : Val) : Outcome Val := binaryOp w l r "add" true

/-- Go `func (ar defaultArithmetic) Sub(ctx, l, r Val) Val`. -/
def Sub (w : World) (l r : Val) : Outcome Val := binaryOp w l r "sub" false

/-- Go `func (ar defaultArithmetic) Mul(ctx, l, r Val) Val`. -/
def Mul (w : World) (l r : Val) : Outcome Val := binaryOp w l r "mul" false

/-- Go `func (ar defaultArithmetic) Div(ctx, l, r Val) Val`. -/
def Div (w : World) (l r : Val) : Outcome Val := binaryOp w l r "div" false

/-- Go `func (ar defaultArithmetic) Mod(ctx, l, r Val) Val`. -/
def Mod (w : World) (l r : Val) : Outcome Val := binaryOp w l r "mod" false

/-- Go `func (ar defaultArithmetic) Unm(ctx, l Val) Val`. -/
def Unm (w : World) (l : Val) : Outcome Val :=
  let lt := TypeOf l
  if lt = "number" then
    match Val_Float w l with
    | .error p => .fail p
    | .ok lf => .ret (.number (F64.neg lf))
  else if lt = "object" then
    match asObject l with
    | .error p => .fail p
    | .ok lo =>
      match callMetaMethod w lo "__unm" [] with
      | some res => ⟨res, [⟨lo, "__unm", []⟩]⟩
      | none => .fail (.typeError (NewTypeError lt "" "unm"))
  else .fail (.typeError (NewTypeError lt "" "unm"))

/-- The five binary operators of the `Arithmetic` interface. -/
inductive BinOp where
  | add
  | sub
  | mul
  | div
  | mod
  deriving DecidableEq

/-- The operator name each method hands to `binaryOp`. -/
def BinOp.opName : BinOp → String
  | .add => "add"
  | .sub => "sub"
  | .mul => "mul"
  | .div => "div"
  | .mod => "mod"

/-- The method of `defaultArithmetic` implementing a binary operator. -/
def BinOp.run (w : World) : BinOp → Val → Val → Outcome Val
  | .add => Add w
  | .sub => Sub w
  | .mul => Mul w
  | .div => Div w
  | .mod => Mod w

/-! ## Comparison -/

/-- Go `var uneqMatrix = map[string]map[string]int`, row by row as in the source. -/
def uneqMatrix : List (String × List (String × Int)) :=
  [ ("nil",
      [("number", -1), ("string", -1), ("bool", -1), ("object", -1), ("func", -1),
       ("custom", -1)]),
    ("number",
      [("nil", 1), ("string", -1), ("bool", 1), ("object", -1), ("func", 1), ("custom", 1)]),
    ("string",
      [("number", 1), ("nil", 1), ("bool", 1), ("object", 1), ("func", 1), ("custom", 1)]),
    ("bool",
      [("number", -1), ("string", -1), ("nil", 1), ("object", -1), ("func", -1),
       ("custom", -1)]),
    ("object",
      [("number", 1), ("string", -1), ("bool", 1), ("nil", 1), ("func", 1), ("custom", 1)]),
    ("func",
      [("number", -1), ("string", -1), ("bool", 1), ("object", -1), ("nil", 1), ("custom", 1)]),
    ("custom",
      [("number", -1), ("string", -1), ("bool", 1), ("object", -1), ("func", -1), ("nil", 1)]) ]

/-- Go map indexing `uneqMatrix[lt][rt]`: a key that is absent, in the outer or in the inner
map, yields the zero value. -/
def uneqMatrixAt (lt rt : String) : Int :=
  match uneqMatrix.lookup lt with
  | none => 0
  | some row =>
    match row.lookup rt with
    | none => 0
    | some n => n

/-- The statement `return int(v.Int(ctx))` applied to what a `__cmp` meta-method yielded. -/
def cmpResult (w : World) (res : Except Panic Val) : Except Panic Int :=
  match res with
  | .error p => .error p
  | .ok v => Val_Int w v

/-- The case "number" of `Cmp`. -/
def cmpNumber (w : World) (l r : Val) : Except Panic Int :=
  match Val_Float w l with
  | .error p => .error p
  | .ok lf =>
    match Val_Float w r with
    | .error p => .error p
    | .ok rf => .ok (if F64.eq lf rf then 0 else if F64.lt lf rf then -1 else 1)

/-- The case "string" of `Cmp`. -/
def cmpString (w : World) (l r : Val) : Except Panic Int :=
  match Val_String w l with
  | .error p => .error p
  | .ok ls =>
    match Val_String w r with
    | .error p => .error p
    | .ok rs => .ok (if ls = rs then 0 else if ls < rs then -1 else 1)

/-- The case "bool" of `Cmp`. -/
def cmpBool (w : World) (l r : Val) : Except Panic Int :=
  match Val_Bool w l with
  | .error p => .error p
  | .ok lb =>
    match Val_Bool w r with
    | .error p => .error p
    | .ok rb => .ok (if lb = rb then 0 else if lb = true then 1 else -1)

/-- The case "func" of `Cmp`. -/
def cmpFunc (l r : Val) : Int :=
  if Native.eq (Val_Native l) (Val_Native r) then 0 else -1

/-- The case "object" of `Cmp`. -/
def cmpObject (w : World) (l r : Val) : Outcome Int :=
  match asObject l with
  | .error p => .fail p
  | .ok lo =>
    match asObject r with
    | .error p => .fail p
    | .ok ro =>
      match callMetaMethod w lo "__cmp" [r, .bool true] with
      | some res => ⟨cmpResult w res, [⟨lo, "__cmp", [r, .bool true]⟩]⟩
      | none =>
        match callMetaMethod w ro "__cmp" [l, .bool false] with
        | some res => ⟨cmpResult w res, [⟨ro, "__cmp", [l, .bool false]⟩]⟩
        | none => .ret (if lo = ro then 0 else -1)

/-- Go `l == r` on two `Val` interface values holding host values (val.go, line 251).
Interface values of different dynamic types are unequal; of one comparable dynamic type they
are equal when the values are; of one dynamic type that is not comparable the comparison
is a run-time panic. -/
def hostEq (w : World) (l r : Val) : Except Panic Bool :=
  match l, r with
  | .custom a, .custom b =>
    if w.hostType a = w.hostType b then
      if w.typeComparable (w.hostType a) = true then .ok (decide (a = b))
      else .error (.runtimeError "runtime error: comparing uncomparable type")
    else .ok false
  | l, r => .ok (decide (l = r))

/-- The case "custom" of `Cmp`. -/
def cmpCustom (w : World) (l r : Val) : Outcome Int :=
  match hostEq w l r with
  | .error p => .fail p
  | .ok same => .ret (if same = true then 0 else -1)

/-- The `else` branch of `Cmp` (val.go, lines 260 to 283): operands of different kinds. -/
def cmpUneq (w : World) (l r : Val) : Outcome Int :=
  let lt := TypeOf l
  let rt := TypeOf r
  let sel : Except Panic (Option (Nat × Bool × Val)) :=
    if lt = "object" then (asObject l).map (fun o => some (o, true, r))
    else if rt = "object" then (asObject r).map (fun o => some (o, false, l))
    else .ok none
  match sel with
  | .error p => .fail p
  | .ok none => .ret (uneqMatrixAt lt rt)
  | .ok (some (o, isLeft, otherv)) =>
    match callMetaMethod w o "__cmp" [otherv, .bool isLeft] with
    | some res => ⟨cmpResult w res, [⟨o, "__cmp", [otherv, .bool isLeft]⟩]⟩
    | none => .ret (uneqMatrixAt lt rt)

/-- Go `func (dc defaultComparer) Cmp(ctx, l, r Val) int`. -/
def Cmp (w : World) (l r : Val) : Outcome Int :=
  let lt := TypeOf l
  let rt := TypeOf r
  if lt = rt then
    if lt = "nil" then .ret 0
    else if lt = "number" then .pure (cmpNumber w l r)
    else if lt = "string" then .pure (cmpString w l r)
    else if lt = "bool" then .pure (cmpBool w l r)
    else if lt = "func" then .ret (cmpFunc l r)
    else if lt = "object" then cmpObject w l r
    else if lt = "custom" then cmpCustom w l r
    else .fail (.typeError (NewTypeError lt "" "cmp"))
  else cmpUneq w l r

/-- A world for evaluating the dispatchers on examples: exact arithmetic on finite numbers,
floating-point literals valued when they are decimal integers, no meta-method anywhere, host
conversions that fail, and host values of one comparable type. -/
def bareWorld : World where
  fadd := fun a b => match a, b with
    | .fin p, .fin q => .fin (p + q)
    | _, _ => .nan
  fsub := fun a b => match a, b with
    | .fin p, .fin q => .fin (p - q)
    | _, _ => .nan
  fmul := fun a b => match a, b with
    | .fin p, .fin q => .fin (p * q)
    | _, _ => .nan
  fdiv := fun a b => match a, b with
    | .fin p, .fin q => if q = 0 then (if p = 0 then .nan else .inf (decide (p < 0))) else .fin (p / q)
    | _, _ => .nan
  floatValue := fun s => match ParseInt s with
    | .ok n => some (.fin n)
    | .error _ => none
  formatFloat := fun _ => ""
  metaMethod := fun _ _ => none
  hostInt := fun _ => .error (.host "no conversion")
  hostFloat := fun _ => .error (.host "no conversion")
  hostString := fun _ => .error (.host "no conversion")
  hostBool := fun _ => .error (.host "no conversion")
  hostType := fun _ => 0
  typeComparable := fun _ => true

/-- The world `bareWorld` in which object `o` stores, under the reserved name `nm`, a
callable that returns `v` whatever its arguments. -/
def worldWith (o : Nat) (nm : String) (v : Val) : World :=
  { bareWorld with
    metaMethod := fun o1 nm1 => if o1 = o ∧ nm1 = nm then some (fun _ => .ok v) else none }

/-- The world `bareWorld` in which every object stores, under every name, a callable that
returns the number of the object's own identity. -/
def selfWorld : World :=
  { bareWorld with
    metaMethod := fun o _ => some (fun _ => .ok (.number (.fin (o : ℚ)))) }

/-- The world `bareWorld` in which the host values are of a slice type, such as
`type L []Val`, which Go cannot compare. -/
def sliceWorld : World :=
  { bareWorld with typeComparable := fun _ => false }

/-- The magnitude of a number on the extended rational line: minus infinity at the bottom,
plus infinity at the top, the finite magnitudes in between (a NaN has no magnitude; it is
sent to the bottom). -/
def F64.magnitude : F64 → WithBot (WithTop ℚ)
  | .fin q => ((q : WithTop ℚ) : WithBot (WithTop ℚ))
  | .inf false => ⊤
  | .inf true => ⊥
  | .nan => ⊥

/-- Whether `v` is an object that stores a callable under the reserved name `nm`. -/
def Val.defines (w : World) (v : Val) (nm : String) : Bool :=
  match v with
  | .object o => (w.metaMethod o nm).isSome
  | _ => false

/-- The dispatcher returned a value or raised a `TypeError`. -/
def Outcome.valueOrTypeError {α : Type} (o : Outcome α) : Prop :=
  (∃ v, o.result = .ok v) ∨ (∃ te, o.result = .error (.typeError te))

/-! ## Kinds and decimal literals -/

/-- The seven type tags, in the order of section 3 of the specification. -/
def kinds : List String := ["nil", "number", "string", "bool", "object", "func", "custom"]

/-- The seven type tags from the lowest to the highest of the cross-kind ordering. -/
def kindChain : List String := ["nil", "bool", "custom", "func", "number", "object", "string"]

/-- A decimal digit, `'0'` to `'9'`. -/
def isDigit (c : Char) : Prop := '0' ≤ c ∧ c ≤ '9'

/-- One step of reading a decimal numeral: the value so far, then one more digit. -/
def digitStep (n : Nat) (c : Char) : Nat := n * 10 + (c.toNat - '0'.toNat)

/-- The natural number that a sequence of decimal digits denotes. -/
def decimalValue (cs : List Char) : Nat := cs.foldl digitStep 0

/-- One or more decimal digits. -/
def isDigits (cs : List Char) : Prop := cs ≠ [] ∧ ∀ c ∈ cs, isDigit c

/-- The text `s` is an optional leading `'-'` followed by one or more decimal digits, and
denotes the integer `n`. -/
def minusLiteral (s : String) (n : Int) : Prop :=
  ∃ ds, isDigits ds ∧
    ((s.toList = ds ∧ n = (decimalValue ds : Int)) ∨
     (s.toList = '-' :: ds ∧ n = -(decimalValue ds : Int)))

/-- The text `s` is an optional leading `'+'` or `'-'` followed by one or more decimal
digits, and denotes the integer `n`. -/
def signedLiteral (s : String) (n : Int) : Prop :=
  ∃ ds, isDigits ds ∧
    ((s.toList = ds ∧ n = (decimalValue ds : Int)) ∨
     (s.toList = '+' :: ds ∧ n = (decimalValue ds : Int)) ∨
     (s.toList = '-' :: ds ∧ n = -(decimalValue ds : Int)))

/-- The character of a decimal digit `d`. -/
def digitChar (d : Nat) : Char := Char.ofNat ('0'.toNat + d)

/-- The canonical decimal rendering of a natural number: its digits, most significant
first, without leading zeros, and "0" for zero. -/
def decimalOfNat (n : Nat) : List Char :=
  if n = 0 then ['0'] else ((Nat.digits 10 n).reverse).map digitChar

/-- The canonical decimal rendering of an integer (Go `strconv.FormatInt(n, 10)`): a `'-'`
for a negative number, then the rendering of the magnitude. -/
def decimalRendering (n : Int) : String :=
  String.mk (if n < 0 then '-' :: decimalOfNat n.natAbs else decimalOfNat n.natAbs)

/-- A value of kind nil, bool or string. -/
def Val.nilBoolOrString (v : Val) : Prop :=
  TypeOf v = "nil" ∨ TypeOf v = "bool" ∨ TypeOf v = "string"

/-- The place of a nil, bool or string value in the order nil, false, true, then the
strings in lexicographic order. -/
def Val.place : Val → ℕ ×ₗ String
  | .nil => toLex (0, "")
  | .bool false => toLex (1, "")
  | .bool true => toLex (2, "")
  | .string s => toLex (3, s)
  | _ => toLex (4, "")

/-- Whether the whole text is a well-formed floating-point literal for
`strconv.ParseFloat`: a special value, or a literal read by `readFloat`, with nothing
after it. -/
def floatLiteral (s : String) : Bool :=
  match special s.toList with
  | some (_, n) => n = s.toList.length
  | none =>
    match readFloat s.toList with
    | none => false
    | some n => n = s.toList.length

/-! ## Theorems -/

/-- C1: `Type` is total and returns the tag of each variant: "string", "number", "bool",
"func", "object", "nil", and "custom" for every other value; the result is one of these
seven strings, and two values of different variants never receive the same tag. -/
theorem C1_type_tag_table :
    (∀ s, TypeOf (.string s) = "string") ∧
    (∀ f, TypeOf (.number f) = "number") ∧
    (∀ b, TypeOf (.bool b) = "bool") ∧
    (∀ i, TypeOf (.func i) = "func") ∧
    (∀ i, TypeOf (.object i) = "object") ∧
    TypeOf .nil = "nil" ∧
    (∀ v : Val, (∀ s, v ≠ .string s) → (∀ f, v ≠ .number f) → (∀ b, v ≠ .bool b) →
      (∀ i, v ≠ .func i) → (∀ i, v ≠ .object i) → v ≠ .nil → TypeOf v = "custom") ∧
    (∀ v, TypeOf v ∈ ["string", "number", "bool", "func", "object", "nil", "custom"]) ∧
    (∀ v u : Val, v.variant ≠ u.variant → TypeOf v ≠ TypeOf u) := by
  refine ⟨fun _ => rfl, fun _ => rfl, fun _ => rfl, fun _ => rfl, fun _ => rfl, ?_, ?_, ?_, ?_⟩
  · simp [TypeOf]
  · intro v h1 h2 h3 h4 h5 h6
    cases v <;> simp_all [TypeOf]
  · intro v
    cases v <;> simp [TypeOf]
  · intro v u h
    cases v <;> cases u <;> simp_all [TypeOf, Val.variant]

/-- The tag of a value is never the empty string. -/
theorem TypeOf_ne_empty (v : Val) : TypeOf v ≠ "" := by
  cases v <;> simp [TypeOf]

/-- With a non-empty second tag `NewTypeError` renders the two-type message. -/
theorem NewTypeError_two (t1 t2 op : String) (h : t2 ≠ "") :
    (NewTypeError t1 t2 op).Error =
      "type error: " ++ op ++ " not allowed with types " ++ t1 ++ " and " ++ t2 := by
  simp [NewTypeError, TypeError.Error, h]

/-- An object without the meta-method: the lookup is `none`. -/
theorem defines_object_false {w : World} {o : Nat} {nm : String}
    (h : Val.defines w (.object o) nm = false) : w.metaMethod o nm = none := by
  simpa [Val.defines] using h

/-- C2: for every binary operator and operands that are not both numbers, not both strings
in the case of add, and of which none defines the meta-method (in particular when neither
is an object, and also when one is an object lacking it), the operation raises
`NewTypeError(Type(l), Type(r), op)`, whose text is the two-type message. -/
theorem C2_binary_type_error (w : World) (op : BinOp) (l r : Val)
    (hnum : ¬ (TypeOf l = "number" ∧ TypeOf r = "number"))
    (hstr : op = .add → ¬ (TypeOf l = "string" ∧ TypeOf r = "string"))
    (hl : Val.defines w l ("__" ++ op.opName) = false)
    (hr : Val.defines w r ("__" ++ op.opName) = false) :
    (op.run w l r).result
        = .error (.typeError (NewTypeError (TypeOf l) (TypeOf r) op.opName)) ∧
      (NewTypeError (TypeOf l) (TypeOf r) op.opName).Error
        = "type error: " ++ op.opName ++ " not allowed with types " ++ TypeOf l
            ++ " and " ++ TypeOf r := by
  refine ⟨?_, NewTypeError_two _ _ _ (TypeOf_ne_empty r)⟩
  cases l <;> cases r <;> cases op <;>
    simp_all [BinOp.run, BinOp.opName, Add, Sub, Mul, Div, Mod, binaryOp, binaryOpLast,
      TypeOf, Val.defines, callMetaMethod, asObject, Outcome.fail, Outcome.pure]

/-- C2 (witness): `Sub` of an object without meta-methods and a string. -/
theorem C2_binary_type_error_witness :
    (BinOp.sub.run bareWorld (.object 0) (.string "x")).result
        = .error (.typeError (NewTypeError (TypeOf (.object 0)) (TypeOf (.string "x"))
            BinOp.sub.opName)) ∧
      (NewTypeError (TypeOf (.object 0)) (TypeOf (.string "x")) BinOp.sub.opName).Error
        = "type error: " ++ BinOp.sub.opName ++ " not allowed with types "
            ++ TypeOf (.object 0) ++ " and " ++ TypeOf (.string "x") :=
  C2_binary_type_error bareWorld .sub (.object 0) (.string "x")
    (by decide) (by decide) (by decide) (by decide)

/-- C3: for every binary operator and every right operand, an object left operand that
defines the meta-method gets it called with the right operand and `Bool(true)`; what the
call yields is the result, and this is the only meta-method invoked (the right operand's,
if it has one, is not called). -/
theorem C3_left_meta_method_first (w : World) (op : BinOp) (lo : Nat) (r : Val)
    (f : List Val → Except Panic Val)
    (hf : w.metaMethod lo ("__" ++ op.opName) = some f) :
    (op.run w (.object lo) r).result = f [r, .bool true] ∧
      (op.run w (.object lo) r).calls = [⟨lo, "__" ++ op.opName, [r, .bool true]⟩] := by
  cases op <;> cases r <;>
    simp_all [BinOp.run, BinOp.opName, Add, Sub, Mul, Div, Mod, binaryOp, TypeOf,
      callMetaMethod, asObject]

/-- C3 (witness): both operands are objects defining `__add`; only the left one is called. -/
theorem C3_left_meta_method_first_witness :
    (BinOp.add.run selfWorld (.object 1) (.object 2)).result = .ok (.number (.fin 1)) ∧
    (BinOp.add.run selfWorld (.object 1) (.object 2)).calls
      = [⟨1, "__" ++ BinOp.add.opName, [.object 2, .bool true]⟩] :=
  C3_left_meta_method_first selfWorld .add 1 (.object 2)
    (fun _ => .ok (.number (.fin ((1 : Nat) : ℚ)))) rfl

/-- C4: `Add` of two strings returns their concatenation, left operand first, without
invoking a meta-method; `Sub`, `Mul`, `Div` and `Mod` of two strings raise the `TypeError`
"type error: <op> not allowed with types string and string". -/
theorem C4_strings (w : World) (a b : String) :
    (Add w (.string a) (.string b)).result = .ok (.string (a ++ b)) ∧
    (Add w (.string a) (.string b)).calls = [] ∧
    (Sub w (.string a) (.string b)).result
      = .error (.typeError ⟨"type error: sub not allowed with types string and string"⟩) ∧
    (Mul w (.string a) (.string b)).result
      = .error (.typeError ⟨"type error: mul not allowed with types string and string"⟩) ∧
    (Div w (.string a) (.string b)).result
      = .error (.typeError ⟨"type error: div not allowed with types string and string"⟩) ∧
    (Mod w (.string a) (.string b)).result
      = .error (.typeError ⟨"type error: mod not allowed with types string and string"⟩) := by
  refine ⟨?_, ?_, ?_, ?_, ?_, ?_⟩ <;>
    simp [Add, Sub, Mul, Div, Mod, binaryOp, binaryOpLast, TypeOf, concat, Val_String,
      String_String, Outcome.pure, Outcome.fail, NewTypeError]

/-- Truncation of a non-negative rational is its floor. -/
theorem trunc_of_nonneg (q : ℚ) (h : 0 ≤ q) : F64.trunc q = ⌊q⌋ := by
  rw [F64.trunc, Rat.floor_def, Int.tdiv_eq_ediv (Rat.num_nonneg.mpr h) (by positivity)]

/-- Truncation of a non-positive rational is its ceiling. -/
theorem trunc_of_nonpos (q : ℚ) (h : q ≤ 0) : F64.trunc q = ⌈q⌉ := by
  have h1 : ⌈q⌉ = -⌊-q⌋ := by simp [Int.floor_neg]
  rw [F64.trunc, h1, Rat.floor_def]
  simp only [Rat.neg_num, Rat.neg_den]
  have h2 : 0 ≤ -q.num := by
    have := Rat.num_nonpos.mpr h
    omega
  rw [← Int.tdiv_eq_ediv h2 (by positivity), Int.neg_tdiv, neg_neg]

/-- Within the 64-bit range the conversion to `int64` is the truncation. -/
theorem toInt64_fin_of_abs_lt (q : ℚ) (h : |q| < 2 ^ 63) :
    F64.toInt64 (.fin q) = F64.trunc q := by
  have hq := abs_lt.mp h
  have hlo : -(2 : Int) ^ 63 ≤ F64.trunc q ∧ F64.trunc q < (2 : Int) ^ 63 := by
    rcases le_total 0 q with h0 | h0
    · rw [trunc_of_nonneg q h0]
      have h1 : (0 : Int) ≤ ⌊q⌋ := Int.floor_nonneg.mpr h0
      have h2 : ((⌊q⌋ : Int) : ℚ) < 2 ^ 63 := lt_of_le_of_lt (Int.floor_le q) hq.2
      have h3 : ⌊q⌋ < (2 : Int) ^ 63 := by exact_mod_cast h2
      exact ⟨by omega, h3⟩
    · rw [trunc_of_nonpos q h0]
      have h1 : ⌈q⌉ ≤ (0 : Int) := Int.ceil_le.mpr (by simpa using h0)
      have h2 : -(2 : ℚ) ^ 63 < ((⌈q⌉ : Int) : ℚ) := lt_of_lt_of_le hq.1 (Int.le_ceil q)
      have h3 : -(2 : Int) ^ 63 < ⌈q⌉ := by exact_mod_cast h2
      exact ⟨by omega, by omega⟩
  show (if -(2 : Int) ^ 63 ≤ F64.trunc q ∧ F64.trunc q < (2 : Int) ^ 63 then F64.trunc q
    else -(2 : Int) ^ 63) = F64.trunc q
  rw [if_pos hlo]

/-- The truncated remainder of a negated dividend. -/
theorem neg_tmod_eq (a b : Int) : (-a).tmod b = -(a.tmod b) := by
  rw [Int.tmod_def, Int.tmod_def, Int.neg_tdiv]; ring

/-- The magnitude of the truncated remainder. -/
theorem natAbs_tmod_eq (a b : Int) : (Int.tmod a b).natAbs = a.natAbs % b.natAbs := by
  cases a <;> cases b <;> simp [Int.tmod, Int.natAbs_neg] <;> rfl

/-- The truncated remainder is smaller in magnitude than a non-zero divisor. -/
theorem abs_tmod_lt_abs (a b : Int) (hb : b ≠ 0) : |Int.tmod a b| < |b| := by
  rw [Int.abs_eq_natAbs, Int.abs_eq_natAbs, natAbs_tmod_eq]
  exact_mod_cast Nat.mod_lt _ (Int.natAbs_pos.mpr hb)

/-- A non-zero truncated remainder has the sign of the dividend. -/
theorem sign_tmod_eq (a b : Int) (h : Int.tmod a b ≠ 0) :
    Int.sign (Int.tmod a b) = Int.sign a := by
  rcases le_or_lt 0 a with ha | ha
  · have h1 : 0 ≤ Int.tmod a b := Int.tmod_nonneg b ha
    have h2 : 0 < Int.tmod a b := lt_of_le_of_ne h1 (Ne.symm h)
    have h3 : 0 < a := by
      rcases eq_or_lt_of_le ha with h0 | h0
      · subst h0; simp at h
      · exact h0
    rw [Int.sign_eq_one_of_pos h2, Int.sign_eq_one_of_pos h3]
  · have h1 : Int.tmod a b ≤ 0 := by
      have h0 := Int.tmod_nonneg b (a := -a) (by omega)
      rw [neg_tmod_eq] at h0
      omega
    have h2 : Int.tmod a b < 0 := lt_of_le_of_ne h1 h
    rw [Int.sign_eq_neg_one_of_neg h2, Int.sign_eq_neg_one_of_neg ha]

/-- The result of `Mod` on two numbers whose right operand does not truncate to zero. -/
theorem Mod_numbers (w : World) (l r : F64) (hb : Number_Int r ≠ 0) :
    (Mod w (.number l) (.number r)).result
      = .ok (.number (F64.ofInt64 (Int.tmod (Number_Int l) (Number_Int r)))) := by
  simp [Mod, binaryOp, TypeOf, intMod, Val_Int, int64Rem, hb, Outcome.pure]

/-- C5: for numbers `l` and `r` with `a = Int(l)`, `b = Int(r)` and `b` not zero, `Mod`
returns `Number(a rem b)`, where `rem` is the remainder of the division truncated toward
zero: `a = (a quot b) * b + (a rem b)`, `|a rem b| < |b|`, and a non-zero remainder has the
sign of `a`. `Int` truncates toward zero (floor of a non-negative, ceiling of a non-positive
magnitude), so `Mod(3.7, 2) = 1` (for any magnitude from 3 up to 4) and `Mod(-7, 2) = -1`. -/
theorem C5_mod_truncated_remainder (w : World) (l r : F64) (hb : Number_Int r ≠ 0) :
    (Mod w (.number l) (.number r)).result
        = .ok (.number (F64.ofInt64 (Int.tmod (Number_Int l) (Number_Int r)))) ∧
    Number_Int l
        = Int.tdiv (Number_Int l) (Number_Int r) * Number_Int r
          + Int.tmod (Number_Int l) (Number_Int r) ∧
    |Int.tmod (Number_Int l) (Number_Int r)| < |Number_Int r| ∧
    (Int.tmod (Number_Int l) (Number_Int r) ≠ 0 →
      Int.sign (Int.tmod (Number_Int l) (Number_Int r)) = Int.sign (Number_Int l)) ∧
    (∀ q : ℚ, |q| < 2 ^ 63 →
      (0 ≤ q → Number_Int (.fin q) = ⌊q⌋) ∧ (q ≤ 0 → Number_Int (.fin q) = ⌈q⌉)) ∧
    (∀ q : ℚ, 3 ≤ q → q < 4 →
      (Mod w (.number (.fin q)) (.number (.fin 2))).result = .ok (.number (.fin 1))) ∧
    (Mod w (.number (.fin (-7))) (.number (.fin 2))).result = .ok (.number (.fin (-1))) := by
  have two : Number_Int (.fin 2) = 2 := by
    rw [Number_Int, toInt64_fin_of_abs_lt 2 (by norm_num), trunc_of_nonneg 2 (by norm_num)]
    simp
  refine ⟨Mod_numbers w l r hb, (Int.tdiv_add_tmod' _ _).symm, abs_tmod_lt_abs _ _ hb,
    sign_tmod_eq _ _, ?_, ?_, ?_⟩
  · intro q hq
    refine ⟨fun h0 => ?_, fun h0 => ?_⟩
    · rw [Number_Int, toInt64_fin_of_abs_lt q hq, trunc_of_nonneg q h0]
    · rw [Number_Int, toInt64_fin_of_abs_lt q hq, trunc_of_nonpos q h0]
  · intro q h3 h4
    have hq : |q| < 2 ^ 63 := by
      rw [abs_lt]; constructor <;> linarith
    have three : Number_Int (.fin q) = 3 := by
      rw [Number_Int, toInt64_fin_of_abs_lt q hq, trunc_of_nonneg q (by linarith)]
      exact Int.floor_eq_iff.mpr ⟨by exact_mod_cast h3, by norm_num; linarith⟩
    have rem : Int.tmod 3 2 = 1 := by decide
    rw [Mod_numbers w _ _ (by rw [two]; decide), two, three, rem]
    simp [F64.ofInt64]
  · have seven : Number_Int (.fin (-7)) = -7 := by
      rw [Number_Int, toInt64_fin_of_abs_lt (-7) (by norm_num),
        trunc_of_nonpos (-7) (by norm_num)]
      exact Int.ceil_eq_iff.mpr ⟨by norm_num, by norm_num⟩
    have rem : Int.tmod (-7) 2 = -1 := by decide
    rw [Mod_numbers w _ _ (by rw [two]; decide), two, seven, rem]
    simp [F64.ofInt64]

/-- C5 (witness): `Mod(-7, 2)`, whose right operand truncates to 2. -/
theorem C5_mod_truncated_remainder_witness :
    Number_Int (.fin 2) ≠ 0 ∧
    (Mod bareWorld (.number (.fin (-7))) (.number (.fin 2))).result
      = .ok (.number (F64.ofInt64 (Int.tmod (Number_Int (.fin (-7))) (Number_Int (.fin 2))))) :=
  ⟨by simp [Number_Int, F64.toInt64, F64.trunc],
   (C5_mod_truncated_remainder bareWorld (.fin (-7)) (.fin 2)
      (by simp [Number_Int, F64.toInt64, F64.trunc])).1⟩

/-- C6 (counterexample): `Mod(1, 0)` on two numbers neither returns a value nor raises a
`TypeError`: it panics with the run-time error of an integer division by zero. -/
theorem C6_mod_by_zero_not_type_error :
    TypeOf (.number (.fin 1)) ≠ "object" ∧ TypeOf (.number (.fin 0)) ≠ "object" ∧
    (Mod bareWorld (.number (.fin 1)) (.number (.fin 0))).result
      = .error (.runtimeError "runtime error: integer divide by zero") ∧
    ¬ (Mod bareWorld (.number (.fin 1)) (.number (.fin 0))).valueOrTypeError := by
  have h : (Mod bareWorld (.number (.fin 1)) (.number (.fin 0))).result
      = .error (.runtimeError "runtime error: integer divide by zero") := by
    simp [Mod, binaryOp, TypeOf, intMod, Val_Int, int64Rem, Outcome.pure, Number_Int,
      F64.toInt64, F64.trunc]
  refine ⟨by decide, by decide, h, ?_⟩
  rintro (⟨v, hv⟩ | ⟨te, hte⟩)
  · rw [h] at hv; exact absurd hv (by simp)
  · rw [h] at hte; exact absurd hte (by simp)

/-- C6 (amended): for operands neither of which is an object, `Add`, `Sub`, `Mul`, `Div`
and `Mod` either return a value or raise a `TypeError`, leaving aside `Mod` of two numbers
whose right operand truncates to zero. -/
theorem C6_value_or_type_error (w : World) (op : BinOp) (l r : Val)
    (hl : TypeOf l ≠ "object") (hr : TypeOf r ≠ "object")
    (hz : ∀ fl fr, op = .mod → l = .number fl → r = .number fr → Number_Int fr ≠ 0) :
    (op.run w l r).valueOrTypeError := by
  cases l <;> cases r <;> cases op <;>
    simp_all [Outcome.valueOrTypeError, BinOp.run, Add, Sub, Mul, Div, Mod, binaryOp,
      binaryOpLast, TypeOf, floatOp, Val_Float, Number_Float, concat, Val_String,
      String_String, intMod, Val_Int, int64Rem, Outcome.pure, Outcome.fail]

/-- C6 (amended, witness): `Mod(-7, 2)`. -/
theorem C6_value_or_type_error_witness :
    (BinOp.mod.run bareWorld (.number (.fin (-7))) (.number (.fin 2))).valueOrTypeError :=
  C6_value_or_type_error bareWorld .mod (.number (.fin (-7))) (.number (.fin 2))
    (by decide) (by decide)
    (by
      intro fl fr _ _ h
      cases h
      simp [Number_Int, F64.toInt64, F64.trunc])

/-- C1 (witness): a host value is none of the six built-in kinds and is tagged "custom". -/
theorem C1_type_tag_table_witness : TypeOf (.custom 3) = "custom" :=
  C1_type_tag_table.2.2.2.2.2.2.1 (.custom 3) (by simp) (by simp) (by simp) (by simp)
    (by simp) (by simp)

/-- What `Cmp` does with the answer of a `__cmp` meta-method: convert it to an integer. -/
theorem cmpResult_eq_bind (w : World) (res : Except Panic Val) :
    cmpResult w res = Except.bind res (Val_Int w) := by
  cases res <;> rfl

/-- The number 5 converts to the integer 5. -/
theorem Number_Int_five : Number_Int (.fin 5) = 5 := by
  simp [Number_Int, F64.toInt64, F64.trunc]

/-- C8 (the code at the failing input): an object whose `__cmp` meta-method answers the
number 5 makes `Cmp` return 5, which is none of -1, 0 and 1. -/
theorem C8_cmp_meta_method_out_of_range :
    (Cmp (worldWith 1 "__cmp" (.number (.fin 5))) (.object 1) .nil).result = .ok 5 ∧
    (Cmp (worldWith 1 "__cmp" (.number (.fin 5))) (.object 1) (.object 1)).result = .ok 5 ∧
    (5 : Int) ≠ -1 ∧ (5 : Int) ≠ 0 ∧ (5 : Int) ≠ 1 := by
  refine ⟨?_, ?_, by decide, by decide, by decide⟩ <;>
    simp [Cmp, cmpUneq, cmpObject, TypeOf, asObject, callMetaMethod, worldWith, cmpResult,
      Val_Int, Number_Int_five, Except.map]

/-- Go `==` on two numbers that are not NaN is equality of the magnitudes. -/
theorem F64_eq_iff (l r : F64) (hl : l ≠ .nan) (hr : r ≠ .nan) :
    F64.eq l r = true ↔ l = r := by
  cases l <;> cases r <;> simp_all [F64.eq]

/-- Go `<` is irreflexive. -/
theorem F64_lt_irrefl (l : F64) : F64.lt l l = false := by
  cases l <;> simp [F64.lt]

/-- Go `<` is asymmetric. -/
theorem F64_lt_asymm (l r : F64) (h : F64.lt l r = true) : F64.lt r l = false := by
  cases l <;> cases r <;> simp_all [F64.lt]
  exact le_of_lt h

/-- Two different numbers that are not NaN are ordered one way or the other. -/
theorem F64_lt_or_gt (l r : F64) (hl : l ≠ .nan) (hr : r ≠ .nan) (hne : l ≠ r) :
    F64.lt l r = true ∨ F64.lt r l = true := by
  cases l <;> cases r <;> simp_all [F64.lt]
  rename_i a b
  cases a <;> cases b <;> simp_all

/-- The case "number" of `Cmp` on two numbers. -/
theorem Cmp_numbers (w : World) (l r : F64) :
    (Cmp w (.number l) (.number r)).result
      = .ok (if F64.eq l r then 0 else if F64.lt l r then -1 else 1) := by
  simp [Cmp, TypeOf, cmpNumber, Val_Float, Number_Float, Outcome.pure]

/-- The case "string" of `Cmp` on two strings. -/
theorem Cmp_strings (w : World) (a b : String) :
    (Cmp w (.string a) (.string b)).result
      = .ok (if a = b then 0 else if a < b then -1 else 1) := by
  simp [Cmp, TypeOf, cmpString, Val_String, String_String, Outcome.pure]

/-- C9 (counterexample): `Cmp` of the number NaN with itself is 1, although NaN is not
greater than NaN (Go `<` and `==` are false on it in both directions). -/
theorem C9_cmp_nan_is_one :
    (Cmp bareWorld (.number .nan) (.number .nan)).result = .ok 1 ∧
    F64.lt .nan .nan = false ∧ F64.eq .nan .nan = false ∧
    ¬ ((Cmp bareWorld (.number .nan) (.number .nan)).result = .ok 1 ↔
        F64.lt .nan .nan = true) := by
  have h : (Cmp bareWorld (.number .nan) (.number .nan)).result = .ok 1 := by
    rw [Cmp_numbers]; rfl
  refine ⟨h, rfl, rfl, ?_⟩
  intro hiff
  exact absurd (hiff.mp h) (by decide)

/-- C10: for two operands of different kinds, an object among them that defines `__cmp` gets
it called with the other operand and `Bool(isLeft)`, `isLeft` being true exactly when the
object is the left operand, and `Cmp` returns the integer conversion of what the call
yields; otherwise `Cmp` returns `uneqMatrix[Type(l)][Type(r)]`. -/
theorem C10_cmp_cross_kind (w : World) (l r : Val) (hk : TypeOf l ≠ TypeOf r) :
    (∀ o g, l = .object o → w.metaMethod o "__cmp" = some g →
      (Cmp w l r).result = Except.bind (g [r, .bool true]) (Val_Int w) ∧
      (Cmp w l r).calls = [⟨o, "__cmp", [r, .bool true]⟩]) ∧
    (∀ o g, r = .object o → w.metaMethod o "__cmp" = some g →
      (Cmp w l r).result = Except.bind (g [l, .bool false]) (Val_Int w) ∧
      (Cmp w l r).calls = [⟨o, "__cmp", [l, .bool false]⟩]) ∧
    (Val.defines w l "__cmp" = false → Val.defines w r "__cmp" = false →
      (Cmp w l r).result = .ok (uneqMatrixAt (TypeOf l) (TypeOf r)) ∧
      (Cmp w l r).calls = []) := by
  refine ⟨?_, ?_, ?_⟩
  · rintro o g rfl hg
    rw [← cmpResult_eq_bind]
    cases r <;>
      simp_all [Cmp, cmpUneq, TypeOf, asObject, callMetaMethod, Except.map]
  · rintro o g rfl hg
    rw [← cmpResult_eq_bind]
    cases l <;>
      simp_all [Cmp, cmpUneq, TypeOf, asObject, callMetaMethod, Except.map]
  · intro hl hr
    cases l <;> cases r <;>
      simp_all [Cmp, cmpUneq, TypeOf, asObject, callMetaMethod, Val.defines, Except.map,
        Outcome.ret]

/-- C10 (witness): a string against an object whose `__cmp` answers the number 5; the object
is the right operand, so the flag is `Bool(false)`. -/
theorem C10_cmp_cross_kind_witness :
    (Cmp (worldWith 1 "__cmp" (.number (.fin 5))) (.string "a") (.object 1)).result
      = Val_Int (worldWith 1 "__cmp" (.number (.fin 5))) (.number (.fin 5)) ∧
    (Cmp (worldWith 1 "__cmp" (.number (.fin 5))) (.string "a") (.object 1)).calls
      = [⟨1, "__cmp", [.string "a", .bool false]⟩] :=
  (C10_cmp_cross_kind (worldWith 1 "__cmp" (.number (.fin 5))) (.string "a") (.object 1)
    (by decide)).2.1 1 (fun _ => .ok (.number (.fin 5))) rfl (by simp [worldWith])

/-- Every tag is one of the seven kinds. -/
theorem TypeOf_mem_kinds (v : Val) : TypeOf v ∈ kinds := by
  cases v <;> simp [TypeOf, kinds]

/-- Operands of different kinds to which no `__cmp` applies: `Cmp` is the matrix entry, and
no meta-method is invoked. -/
theorem Cmp_matrix_entry (w : World) (l r : Val) (hk : TypeOf l ≠ TypeOf r)
    (hl : Val.defines w l "__cmp" = false) (hr : Val.defines w r "__cmp" = false) :
    (Cmp w l r).result = .ok (uneqMatrixAt (TypeOf l) (TypeOf r)) := by
  cases l <;> cases r <;>
    simp_all [Cmp, cmpUneq, TypeOf, asObject, callMetaMethod, Val.defines, Except.map,
      Outcome.ret]

/-- The matrix entries of two distinct kinds are opposite. -/
theorem uneqMatrixAt_antisymm :
    ∀ a ∈ kinds, ∀ b ∈ kinds, a ≠ b → uneqMatrixAt a b = -uneqMatrixAt b a := by
  decide

/-- C11: the cross-kind matrix is antisymmetric, `uneqMatrix[a][b] = -uneqMatrix[b][a]` for
every two distinct kinds; hence for values of different kinds to which no `__cmp`
meta-method applies, `Cmp(l, r) = -Cmp(r, l)`. -/
theorem C11_matrix_antisymmetric :
    (∀ a ∈ kinds, ∀ b ∈ kinds, a ≠ b → uneqMatrixAt a b = -uneqMatrixAt b a) ∧
    (∀ (w : World) (l r : Val), TypeOf l ≠ TypeOf r →
      Val.defines w l "__cmp" = false → Val.defines w r "__cmp" = false →
      ∃ n : Int, (Cmp w l r).result = .ok n ∧ (Cmp w r l).result = .ok (-n)) := by
  refine ⟨uneqMatrixAt_antisymm, fun w l r hk hl hr => ?_⟩
  refine ⟨uneqMatrixAt (TypeOf l) (TypeOf r), Cmp_matrix_entry w l r hk hl hr, ?_⟩
  rw [Cmp_matrix_entry w r l (Ne.symm hk) hr hl,
    uneqMatrixAt_antisymm _ (TypeOf_mem_kinds l) _ (TypeOf_mem_kinds r) hk, neg_neg]

/-- C11 (witness): a number against an object without meta-methods. -/
theorem C11_matrix_antisymmetric_witness :
    ∃ n : Int, (Cmp bareWorld (.number (.fin 1)) (.object 7)).result = .ok n ∧
      (Cmp bareWorld (.object 7) (.number (.fin 1))).result = .ok (-n) :=
  C11_matrix_antisymmetric.2 bareWorld (.number (.fin 1)) (.object 7)
    (by decide) (by decide) (by decide)

/-- C12 (counterexample): without meta-methods `Cmp(Nil, b)` is -1 for a bool `b` as well. -/
theorem C12_nil_below_bool :
    (Cmp bareWorld .nil (.bool true)).result = .ok (-1) ∧
    (Cmp bareWorld .nil (.bool false)).result = .ok (-1) ∧
    ¬ (∀ b : Bool, (Cmp bareWorld .nil (.bool b)).result ≠ .ok (-1)) := by
  have h : ∀ b : Bool, (Cmp bareWorld .nil (.bool b)).result = .ok (-1) := by
    intro b
    cases b
    · rw [Cmp_matrix_entry bareWorld .nil (.bool false) (by decide) (by decide) (by decide)]
      rfl
    · rw [Cmp_matrix_entry bareWorld .nil (.bool true) (by decide) (by decide) (by decide)]
      rfl
  exact ⟨h true, h false, fun hall => hall true (h true)⟩

/-- C12 (amended): in cross-kind comparison with no applicable `__cmp` meta-method, nil
compares less than every other kind, bool included: `Cmp(Nil, v) = -1` for every `v` of kind
number, string, bool, object, func or custom. -/
theorem C12_nil_lowest (w : World) (v : Val) (hv : TypeOf v ≠ "nil")
    (hd : Val.defines w v "__cmp" = false) :
    (Cmp w .nil v).result = .ok (-1) := by
  rw [Cmp_matrix_entry w .nil v (fun h => hv h.symm) rfl hd]
  cases v <;> first | rfl | exact absurd rfl hv

/-- C12 (amended, witness): nil against a bool. -/
theorem C12_nil_lowest_witness : (Cmp bareWorld .nil (.bool false)).result = .ok (-1) :=
  C12_nil_lowest bareWorld (.bool false) (by decide) (by decide)

/-- C13: in cross-kind comparison with no applicable `__cmp` meta-method a string compares
greater than every other kind: for a string `s` and `v` of kind nil, number, bool, object,
func or custom, `Cmp(s, v) = 1` and `Cmp(v, s) = -1`. -/
theorem C13_string_highest (w : World) (s : String) (v : Val) (hv : TypeOf v ≠ "string")
    (hd : Val.defines w v "__cmp" = false) :
    (Cmp w (.string s) v).result = .ok 1 ∧ (Cmp w v (.string s)).result = .ok (-1) := by
  rw [Cmp_matrix_entry w (.string s) v (fun h => hv h.symm) rfl hd,
    Cmp_matrix_entry w v (.string s) hv hd rfl]
  cases v <;> first | exact ⟨rfl, rfl⟩ | exact absurd rfl hv

/-- C13 (witness): a string against an object without meta-methods. -/
theorem C13_string_highest_witness :
    (Cmp bareWorld (.string "") (.object 0)).result = .ok 1 ∧
    (Cmp bareWorld (.object 0) (.string "")).result = .ok (-1) :=
  C13_string_highest bareWorld "" (.object 0) (by decide) (by decide)

/-- C14: the cross-kind matrix is a total order on the seven kinds: it is transitive over
pairwise distinct kinds, any two distinct kinds are ordered one way, and the kinds form
the single chain nil < bool < custom < func < number < object < string; in particular bool
is above nil and below number. -/
theorem C14_matrix_total_order :
    (∀ a ∈ kinds, ∀ b ∈ kinds, ∀ c ∈ kinds, a ≠ b → b ≠ c → a ≠ c →
      uneqMatrixAt a b = -1 → uneqMatrixAt b c = -1 → uneqMatrixAt a c = -1) ∧
    (∀ a ∈ kinds, ∀ b ∈ kinds, a ≠ b →
      (uneqMatrixAt a b = -1 ∧ uneqMatrixAt b a = 1) ∨
      (uneqMatrixAt a b = 1 ∧ uneqMatrixAt b a = -1)) ∧
    kindChain.Pairwise (fun a b => uneqMatrixAt a b = -1 ∧ uneqMatrixAt b a = 1) ∧
    kindChain.Perm kinds ∧
    uneqMatrixAt "bool" "nil" = 1 ∧ uneqMatrixAt "bool" "number" = -1 := by
  refine ⟨by decide, by decide, by decide, by decide, by decide, by decide⟩

/-- C14 (witness): nil below bool and bool below number give nil below number. -/
theorem C14_matrix_total_order_witness : uneqMatrixAt "nil" "number" = -1 :=
  C14_matrix_total_order.1 "nil" (by decide) "bool" (by decide) "number" (by decide)
    (by decide) (by decide) (by decide) (by decide) (by decide)

/-- Reading more digits never lowers the value read so far. -/
theorem le_foldl_digitStep (cs : List Char) (n : Nat) : n ≤ cs.foldl digitStep n := by
  induction cs generalizing n with
  | nil => simp
  | cons c cs ih =>
    have h := ih (digitStep n c)
    have h1 : n ≤ digitStep n c := by unfold digitStep; omega
    simpa using le_trans h1 h

/-- On digits whose value fits 64 bits the loop of `ParseUint` returns that value. -/
theorem parseUintLoop_of_digits (cs : List Char) (n : Nat) (hd : ∀ c ∈ cs, isDigit c)
    (hmax : cs.foldl digitStep n ≤ maxUint64) :
    parseUintLoop cs n = .ok (cs.foldl digitStep n) := by
  induction cs generalizing n with
  | nil => rfl
  | cons c cs ih =>
    have hc : '0' ≤ c ∧ c ≤ '9' := hd c (List.mem_cons_self _ _)
    have hstep : digitStep n c ≤ maxUint64 :=
      le_trans (le_foldl_digitStep cs (digitStep n c)) (by simpa using hmax)
    have hcut : ¬ n ≥ maxUint64 / 10 + 1 := by
      unfold digitStep at hstep
      unfold maxUint64 at *
      omega
    have hn1 : ¬ n * 10 + (c.toNat - '0'.toNat) > maxUint64 := by
      unfold digitStep at hstep
      omega
    have hrest := ih (digitStep n c) (fun d hdm => hd d (List.mem_cons_of_mem _ hdm))
      (by simpa using hmax)
    simp only [parseUintLoop, hc, and_self, if_true, hcut, if_false, hn1]
    simpa [digitStep] using hrest

/-- What the loop of `ParseUint` returns was read from digits and fits 64 bits. -/
theorem parseUintLoop_ok (cs : List Char) (n m : Nat) (hn : n ≤ maxUint64)
    (h : parseUintLoop cs n = .ok m) :
    (∀ c ∈ cs, isDigit c) ∧ m = cs.foldl digitStep n ∧ m ≤ maxUint64 := by
  induction cs generalizing n with
  | nil =>
    simp only [parseUintLoop, Except.ok.injEq] at h
    subst h
    simp [hn]
  | cons c cs ih =>
    simp only [parseUintLoop] at h
    split_ifs at h with hc hcut hn1
    obtain ⟨h1, h2, h3⟩ := ih (n * 10 + (c.toNat - '0'.toNat)) (by omega) h
    refine ⟨?_, ?_, h3⟩
    · intro d hdm
      rcases List.mem_cons.mp hdm with rfl | hdm
      · exact hc
      · exact h1 d hdm
    · simpa [digitStep] using h2

/-- `ParseUint` succeeds exactly on one or more digits whose value fits 64 bits. -/
theorem ParseUint_ok_iff (ds : List Char) (m : Nat) :
    ParseUint ds = .ok m ↔ isDigits ds ∧ m = decimalValue ds ∧ m ≤ maxUint64 := by
  constructor
  · intro h
    by_cases he : ds = []
    · simp [ParseUint, he] at h
    · simp only [ParseUint, he, if_false] at h
      obtain ⟨h1, h2, h3⟩ := parseUintLoop_ok ds 0 m (by unfold maxUint64; omega) h
      exact ⟨⟨he, h1⟩, h2, h3⟩
  · rintro ⟨⟨he, hd⟩, rfl, hmax⟩
    simp only [ParseUint, he, if_false]
    exact parseUintLoop_of_digits ds 0 hd hmax

/-- When `parseIntSigned` succeeds: the digits are read, and the value is in the signed
64-bit range. -/
theorem parseIntSigned_ok_iff (sign : Bool) (ds : List Char) (n : Int) :
    parseIntSigned sign ds = .ok n ↔
      isDigits ds ∧ n = (if sign then -(decimalValue ds : Int) else (decimalValue ds : Int)) ∧
        -(2 : Int) ^ 63 ≤ n ∧ n < (2 : Int) ^ 63 := by
  unfold parseIntSigned
  cases hp : ParseUint ds with
  | error e =>
    have hno : ¬ (isDigits ds ∧ decimalValue ds ≤ maxUint64) := by
      intro hh
      have := (ParseUint_ok_iff ds (decimalValue ds)).mpr ⟨hh.1, rfl, hh.2⟩
      rw [hp] at this
      exact absurd this (by simp)
    have hfalse : ¬ (isDigits ds ∧
        n = (if sign then -(decimalValue ds : Int) else (decimalValue ds : Int)) ∧
        -(2 : Int) ^ 63 ≤ n ∧ n < (2 : Int) ^ 63) := by
      rintro ⟨h1, h2, h3, h4⟩
      apply hno
      refine ⟨h1, ?_⟩
      unfold maxUint64
      cases sign <;> simp at h2 <;> omega
    cases e <;> exact ⟨fun h => by simp at h, fun h => absurd h hfalse⟩
  | ok un =>
    obtain ⟨h1, h2, h3⟩ := (ParseUint_ok_iff ds un).mp hp
    subst h2
    cases sign
    · simp only [Bool.not_false, true_and, Bool.false_eq_true, false_and, if_false]
      by_cases hr : decimalValue ds ≥ 2 ^ 63
      · simp only [hr, if_true]
        constructor
        · intro h; exact absurd h (by simp)
        · rintro ⟨_, h2, _, h4⟩
          omega
      · simp only [hr, if_false, Except.ok.injEq]
        constructor
        · rintro rfl
          exact ⟨h1, by simp, by omega, by omega⟩
        · rintro ⟨_, h2, _, _⟩
          simpa using h2.symm
    · simp only [Bool.not_true, Bool.false_eq_true, false_and, if_false, true_and, if_true]
      by_cases hr : decimalValue ds > 2 ^ 63
      · simp only [hr, if_true]
        constructor
        · intro h; exact absurd h (by simp)
        · rintro ⟨_, h2, h3', _⟩
          omega
      · simp only [hr, if_false, Except.ok.injEq]
        constructor
        · rintro rfl
          exact ⟨h1, by simp, by omega, by omega⟩
        · rintro ⟨_, h2, _, _⟩
          simpa using h2.symm

/-- A digit is neither of the two sign characters. -/
theorem isDigit_not_sign (c : Char) (h : isDigit c) : c ≠ '+' ∧ c ≠ '-' := by
  unfold isDigit at h
  constructor <;> rintro rfl <;> exact absurd h (by decide)

/-- `ParseInt` succeeds exactly on the signed decimal literals of the signed 64-bit range,
and returns the integer denoted. -/
theorem ParseInt_ok_iff (s : String) (n : Int) :
    ParseInt s = .ok n ↔ signedLiteral s n ∧ -(2 : Int) ^ 63 ≤ n ∧ n < (2 : Int) ^ 63 := by
  unfold ParseInt signedLiteral
  cases hs : s.toList with
  | nil =>
    refine ⟨fun h => by simp at h, ?_⟩
    rintro ⟨⟨ds, ⟨hne, _⟩, h | h | h⟩, _⟩
    · exact absurd h.1.symm hne
    · exact absurd h.1 (by simp)
    · exact absurd h.1 (by simp)
  | cons c cs =>
    by_cases hplus : c = '+'
    · subst hplus
      simp only [if_true]
      rw [parseIntSigned_ok_iff]
      constructor
      · rintro ⟨h1, h2, h3, h4⟩
        exact ⟨⟨cs, h1, Or.inr (Or.inl ⟨rfl, by simpa using h2⟩)⟩, h3, h4⟩
      · rintro ⟨⟨ds, hd, h | h | h⟩, h3, h4⟩
        · exact absurd rfl (isDigit_not_sign '+'
            (hd.2 '+' (by rw [← h.1]; exact List.mem_cons_self _ _))).1
        · obtain ⟨he, hv⟩ := h
          simp only [List.cons.injEq, true_and] at he
          subst he
          exact ⟨hd, by simpa using hv, h3, h4⟩
        · exact absurd h.1 (by simp)
    · by_cases hminus : c = '-'
      · subst hminus
        simp only [hplus, if_false, if_true]
        rw [parseIntSigned_ok_iff]
        constructor
        · rintro ⟨h1, h2, h3, h4⟩
          exact ⟨⟨cs, h1, Or.inr (Or.inr ⟨rfl, by simpa using h2⟩)⟩, h3, h4⟩
        · rintro ⟨⟨ds, hd, h | h | h⟩, h3, h4⟩
          · exact absurd rfl (isDigit_not_sign '-'
              (hd.2 '-' (by rw [← h.1]; exact List.mem_cons_self _ _))).2
          · exact absurd h.1 (by simp)
          · obtain ⟨he, hv⟩ := h
            simp only [List.cons.injEq, true_and] at he
            subst he
            exact ⟨hd, by simpa using hv, h3, h4⟩
      · simp only [hplus, hminus, if_false]
        rw [parseIntSigned_ok_iff]
        constructor
        · rintro ⟨h1, h2, h3, h4⟩
          exact ⟨⟨c :: cs, h1, Or.inl ⟨rfl, by simpa using h2⟩⟩, h3, h4⟩
        · rintro ⟨⟨ds, hd, h | h | h⟩, h3, h4⟩
          · obtain ⟨he, hv⟩ := h
            subst he
            exact ⟨hd, by simpa using hv, h3, h4⟩
          · exact absurd (List.cons.inj h.1).1 hplus
          · exact absurd (List.cons.inj h.1).1 hminus

/-- `String.Int` returns what `ParseInt` returns. -/
theorem String_Int_ok_iff (s : String) (n : Int) :
    String_Int s = .ok n ↔ ParseInt s = .ok n := by
  unfold String_Int
  cases ParseInt s <;> simp

/-- C15 (counterexample): `String.Int` accepts "+5", which has a leading `'+'`, and rejects
"9223372036854775808", which is made of decimal digits only. -/
theorem C15_plus_sign_and_range :
    String_Int "+5" = .ok 5 ∧ (¬ ∃ n, minusLiteral "+5" n) ∧
    minusLiteral "9223372036854775808" 9223372036854775808 ∧
    String_Int "9223372036854775808"
      = .error (.numError "ParseInt" "9223372036854775808" .rangeErr) := by
  refine ⟨rfl, ?_, ?_, rfl⟩
  · rintro ⟨n, ds, hd, h | h⟩
    · have hds : ds = ['+', '5'] := h.1.symm
      subst hds
      exact absurd rfl (isDigit_not_sign '+' (hd.2 '+' (by simp))).1
    · have hl : ['+', '5'] = '-' :: ds := h.1
      exact absurd (List.cons.inj hl).1 (by decide)
  · refine ⟨"9223372036854775808".toList, ⟨by decide, ?_⟩, Or.inl ⟨rfl, by decide⟩⟩
    unfold isDigit
    decide

/-- C15 (amended): `String.Int` succeeds exactly on the texts made of an optional leading
`'+'` or `'-'` followed by one or more decimal digits that denote an integer of the signed
64-bit range, and then returns that integer; it fails on every other text, in particular
on "", "a9", "-999.23" and "1e2". -/
theorem C15_string_int_grammar :
    (∀ s n, String_Int s = .ok n ↔
      signedLiteral s n ∧ -(2 : Int) ^ 63 ≤ n ∧ n < (2 : Int) ^ 63) ∧
    (∀ s, (¬ ∃ n, signedLiteral s n ∧ -(2 : Int) ^ 63 ≤ n ∧ n < (2 : Int) ^ 63) →
      ∃ e, String_Int s = .error (.numError "ParseInt" s e)) ∧
    String_Int "" = .error (.numError "ParseInt" "" .syntaxErr) ∧
    String_Int "a9" = .error (.numError "ParseInt" "a9" .syntaxErr) ∧
    String_Int "-999.23" = .error (.numError "ParseInt" "-999.23" .syntaxErr) ∧
    String_Int "1e2" = .error (.numError "ParseInt" "1e2" .syntaxErr) ∧
    String_Int "0" = .ok 0 ∧ String_Int "123" = .ok 123 ∧ String_Int "-999" = .ok (-999) := by
  refine ⟨fun s n => ?_, fun s hs => ?_, rfl, rfl, rfl, rfl, rfl, rfl, rfl⟩
  · rw [String_Int_ok_iff, ParseInt_ok_iff]
  · cases hp : ParseInt s with
    | error e => exact ⟨e, by simp [String_Int, hp]⟩
    | ok n => exact absurd ⟨n, (ParseInt_ok_iff s n).mp hp⟩ hs

/-- C15 (amended, witness): the text "-1". -/
theorem C15_string_int_grammar_witness : String_Int "-1" = .ok (-1) :=
  (C15_string_int_grammar.1 "-1" (-1)).mpr
    ⟨⟨['1'], ⟨by decide, by unfold isDigit; decide⟩, Or.inr (Or.inr ⟨rfl, by decide⟩)⟩,
      by decide, by decide⟩

/-- C16 (counterexample): on "", "a9" and "-999.23" `String.Int` panics with the error of
`strconv.ParseInt`, which is not a `TypeError`. -/
theorem C16_parse_error_not_type_error :
    String_Int "" = .error (.numError "ParseInt" "" .syntaxErr) ∧
    String_Int "a9" = .error (.numError "ParseInt" "a9" .syntaxErr) ∧
    String_Int "-999.23" = .error (.numError "ParseInt" "-999.23" .syntaxErr) ∧
    Panic.isTypeError (.numError "ParseInt" "" .syntaxErr) = false ∧
    Panic.isTypeError (.numError "ParseInt" "a9" .syntaxErr) = false ∧
    Panic.isTypeError (.numError "ParseInt" "-999.23" .syntaxErr) = false ∧
    ¬ (∃ te, String_Int "" = .error (.typeError te)) :=
  ⟨rfl, rfl, rfl, rfl, rfl, rfl, fun ⟨_, h⟩ => by
    have h2 : String_Int "" = .error (.numError "ParseInt" "" .syntaxErr) := rfl
    rw [h2] at h
    exact absurd h (by simp)⟩

/-- The character of a digit is a decimal digit, and reads back as the digit. -/
theorem digitChar_spec (d : Nat) (h : d < 10) :
    isDigit (digitChar d) ∧ ∀ n, digitStep n (digitChar d) = n * 10 + d := by
  unfold isDigit digitStep
  interval_cases d <;> exact ⟨by decide, fun n => rfl⟩

/-- Reading the digits of a numeral, most significant first, gives its value. -/
theorem foldl_digitStep_reverse (L : List Nat) (h : ∀ d ∈ L, d < 10) :
    List.foldl digitStep 0 ((L.reverse).map digitChar) = Nat.ofDigits 10 L := by
  induction L with
  | nil => rfl
  | cons d L ih =>
    have hd : d < 10 := h d (List.mem_cons_self _ _)
    have hL := ih (fun e he => h e (List.mem_cons_of_mem _ he))
    simp only [List.reverse_cons, List.map_append, List.map_cons, List.map_nil,
      List.foldl_append, List.foldl_cons, List.foldl_nil, hL, (digitChar_spec d hd).2,
      Nat.ofDigits_cons]
    ring

/-- The rendering of a natural number is made of digits and denotes the number. -/
theorem decimalOfNat_spec (n : Nat) :
    isDigits (decimalOfNat n) ∧ decimalValue (decimalOfNat n) = n := by
  unfold decimalOfNat
  by_cases h0 : n = 0
  · subst h0
    refine ⟨⟨by simp, ?_⟩, rfl⟩
    unfold isDigit
    decide
  · have hlt : ∀ d ∈ Nat.digits 10 n, d < 10 := fun d hd => Nat.digits_lt_base (by norm_num) hd
    simp only [h0, if_false]
    refine ⟨⟨?_, ?_⟩, ?_⟩
    · simpa using (Nat.digits_ne_nil_iff_ne_zero.mpr h0)
    · intro c hc
      obtain ⟨d, hd, rfl⟩ := List.mem_map.mp hc
      exact (digitChar_spec d (hlt d (List.mem_reverse.mp hd))).1
    · unfold decimalValue
      rw [foldl_digitStep_reverse _ hlt, Nat.ofDigits_digits]

/-- C17: integer parsing round-trips: for every integer `n` of the signed 64-bit range,
`String.Int` applied to the canonical decimal rendering of `n` returns `n`. -/
theorem C17_int_round_trip (n : Int) (hlo : -(2 : Int) ^ 63 ≤ n) (hhi : n < (2 : Int) ^ 63) :
    String_Int (decimalRendering n) = .ok n := by
  rw [String_Int_ok_iff, ParseInt_ok_iff]
  refine ⟨⟨decimalOfNat n.natAbs, (decimalOfNat_spec _).1, ?_⟩, hlo, hhi⟩
  rw [(decimalOfNat_spec _).2]
  by_cases hn : n < 0
  · refine Or.inr (Or.inr ⟨by simp [decimalRendering, hn], ?_⟩)
    omega
  · refine Or.inl ⟨by simp [decimalRendering, hn], ?_⟩
    omega

/-- C17 (witness): the integer -999, rendered "-999". -/
theorem C17_int_round_trip_witness :
    decimalRendering (-999) = "-999" ∧ String_Int (decimalRendering (-999)) = .ok (-999) :=
  ⟨by
    have h : Nat.digits 10 999 = [9, 9, 9] := by norm_num
    simp [decimalRendering, decimalOfNat, h, digitChar],
   C17_int_round_trip (-999) (by decide) (by decide)⟩

/-- C18: for the nil value `String` returns "nil", `Bool` returns false, and `Int` and
`Float` fail with the `TypeError`s "type error: int not allowed with type nil" and
"type error: float not allowed with type nil"; so does the interface call on `Nil` in
every world. -/
theorem C18_nil_conversions :
    null_String = "nil" ∧ null_Bool = false ∧
    null_Int = .error (.typeError ⟨"type error: int not allowed with type nil"⟩) ∧
    null_Float = .error (.typeError ⟨"type error: float not allowed with type nil"⟩) ∧
    (∀ w : World,
      Val_String w .nil = .ok "nil" ∧ Val_Bool w .nil = .ok false ∧
      (∃ te, Val_Int w .nil = .error (.typeError te) ∧
        te.Error = "type error: int not allowed with type nil") ∧
      (∃ te, Val_Float w .nil = .error (.typeError te) ∧
        te.Error = "type error: float not allowed with type nil")) := by
  refine ⟨rfl, rfl, ?_, ?_, fun w => ⟨rfl, rfl, ⟨_, rfl, ?_⟩, ⟨_, rfl, ?_⟩⟩⟩ <;>
    simp [null_Int, null_Float, NewTypeError, TypeOf, TypeError.Error]

/-- C19: `NewTypeError(t1, t2, op)` has the text "type error: <op> not allowed with types
<t1> and <t2>" when `t2` is not empty and "type error: <op> not allowed with type <t1>"
when `t2` is empty; the text is a function of the three arguments. -/
theorem C19_type_error_text (t1 t2 op : String) :
    (t2 ≠ "" → (NewTypeError t1 t2 op).Error
      = "type error: " ++ op ++ " not allowed with types " ++ t1 ++ " and " ++ t2) ∧
    (t2 = "" → (NewTypeError t1 t2 op).Error
      = "type error: " ++ op ++ " not allowed with type " ++ t1) := by
  refine ⟨fun h => ?_, fun h => ?_⟩
  · simp [NewTypeError, TypeError.Error, h]
  · simp [NewTypeError, TypeError.Error, h]

/-- C19 (witness): the two forms, on the tags of `Add(string, number)` and of Nil's `Int`. -/
theorem C19_type_error_text_witness :
    (NewTypeError "string" "number" "add").Error
      = "type error: " ++ "add" ++ " not allowed with types " ++ "string" ++ " and " ++ "number" ∧
    (NewTypeError "nil" "" "int").Error
      = "type error: " ++ "int" ++ " not allowed with type " ++ "nil" :=
  ⟨(C19_type_error_text "string" "number" "add").1 (by decide),
   (C19_type_error_text "nil" "" "int").2 rfl⟩

/-- A text has a positive length in bytes exactly when it has one in characters. -/
theorem utf8ByteSize_pos_iff (s : String) : 0 < s.utf8ByteSize ↔ 0 < s.length := by
  cases s with
  | mk l =>
    cases l with
    | nil => simp [String.utf8ByteSize, String.utf8ByteSize.go]
    | cons c cs =>
      simp [String.utf8ByteSize, String.utf8ByteSize.go]
      have := Char.utf8Size_pos c
      omega

/-- C20: `String.String` returns exactly the wrapped text (so "123.0000" stays "123.0000"),
and `String.Bool` is true if and only if the text has a length greater than 0, counted in
bytes or in characters (so " " and "\n" are true and "" is false). -/
theorem C20_string_identity_and_truth :
    (∀ s : String, String_String s = s) ∧
    (∀ s : String, String_Bool s = true ↔ 0 < s.length) ∧
    (∀ s : String, String_Bool s = true ↔ 0 < s.utf8ByteSize) ∧
    (∀ (w : World) (s : String),
      Val_String w (.string s) = .ok s ∧ Val_Bool w (.string s) = .ok (String_Bool s)) ∧
    String_String "123.0000" = "123.0000" ∧
    String_Bool " " = true ∧ String_Bool "\n" = true ∧ String_Bool "" = false := by
  refine ⟨fun _ => rfl, fun s => ?_, fun s => ?_, fun _ _ => ⟨rfl, rfl⟩, rfl, by decide,
    by decide, by decide⟩
  · simp [String_Bool]
  · rw [utf8ByteSize_pos_iff]
    simp [String_Bool]

/-- C21: for every binary operator, when the left operand is not an object defining the
meta-method and the right operand is an object defining it, the result is what the right
operand's meta-method yields when called with the left operand and `Bool(false)`, and this
is the only meta-method invoked. A left operand that is an object lacking the meta-method
falls through to the right operand like any other. -/
theorem C21_right_meta_method (w : World) (op : BinOp) (l : Val) (ro : Nat)
    (g : List Val → Except Panic Val)
    (hl : Val.defines w l ("__" ++ op.opName) = false)
    (hg : w.metaMethod ro ("__" ++ op.opName) = some g) :
    (op.run w l (.object ro)).result = g [l, .bool false] ∧
      (op.run w l (.object ro)).calls = [⟨ro, "__" ++ op.opName, [l, .bool false]⟩] := by
  cases op <;> cases l <;>
    simp_all [BinOp.run, BinOp.opName, Add, Sub, Mul, Div, Mod, binaryOp, binaryOpLast,
      TypeOf, Val.defines, callMetaMethod, asObject]

/-- C21 (witness): `Add` of an object without `__add` and an object whose `__add` answers
the number 5. -/
theorem C21_right_meta_method_witness :
    (BinOp.add.run (worldWith 2 "__add" (.number (.fin 5))) (.object 1) (.object 2)).result
      = .ok (.number (.fin 5)) ∧
    (BinOp.add.run (worldWith 2 "__add" (.number (.fin 5))) (.object 1) (.object 2)).calls
      = [⟨2, "__" ++ BinOp.add.opName, [.object 1, .bool false]⟩] :=
  C21_right_meta_method (worldWith 2 "__add" (.number (.fin 5))) .add (.object 1) 2
    (fun _ => .ok (.number (.fin 5))) (by decide) (by simp [worldWith, BinOp.opName])

/-- The case "object" of `Cmp` on two objects. -/
theorem Cmp_objects (w : World) (lo ro : Nat) :
    Cmp w (.object lo) (.object ro) = cmpObject w (.object lo) (.object ro) := by
  simp [Cmp, TypeOf]

/-- C22: for two objects `Cmp` resolves in this order: if the left one defines `__cmp`, the
integer conversion of what it yields on the right operand and `Bool(true)`, the right
operand's meta-method not being called; else, if the right one defines `__cmp`, the integer
conversion of what it yields on the left operand and `Bool(false)`; else 0 for the same
object and -1 otherwise, so that two distinct objects without `__cmp` compare as -1 in both
directions. -/
theorem C22_cmp_objects (w : World) (lo ro : Nat) :
    (∀ g, w.metaMethod lo "__cmp" = some g →
      (Cmp w (.object lo) (.object ro)).result
        = Except.bind (g [.object ro, .bool true]) (Val_Int w) ∧
      (Cmp w (.object lo) (.object ro)).calls = [⟨lo, "__cmp", [.object ro, .bool true]⟩]) ∧
    (w.metaMethod lo "__cmp" = none → ∀ g, w.metaMethod ro "__cmp" = some g →
      (Cmp w (.object lo) (.object ro)).result
        = Except.bind (g [.object lo, .bool false]) (Val_Int w) ∧
      (Cmp w (.object lo) (.object ro)).calls = [⟨ro, "__cmp", [.object lo, .bool false]⟩]) ∧
    (w.metaMethod lo "__cmp" = none → w.metaMethod ro "__cmp" = none →
      (Cmp w (.object lo) (.object ro)).result = .ok (if lo = ro then 0 else -1) ∧
      (Cmp w (.object lo) (.object ro)).calls = []) ∧
    (w.metaMethod lo "__cmp" = none → w.metaMethod ro "__cmp" = none → lo ≠ ro →
      (Cmp w (.object lo) (.object ro)).result = .ok (-1) ∧
      (Cmp w (.object ro) (.object lo)).result = .ok (-1)) := by
  refine ⟨fun g hg => ?_, fun hl g hg => ?_, fun hl hr => ?_, fun hl hr hne => ?_⟩
  · rw [Cmp_objects, ← cmpResult_eq_bind]
    simp [cmpObject, asObject, callMetaMethod, hg]
  · rw [Cmp_objects, ← cmpResult_eq_bind]
    simp [cmpObject, asObject, callMetaMethod, hl, hg]
  · rw [Cmp_objects]
    simp [cmpObject, asObject, callMetaMethod, hl, hr, Outcome.ret]
  · rw [Cmp_objects, Cmp_objects]
    simp [cmpObject, asObject, callMetaMethod, hl, hr, Outcome.ret, hne, Ne.symm hne]

/-- C22 (witness): two distinct objects without meta-methods, and two objects that both
define `__cmp`. -/
theorem C22_cmp_objects_witness :
    ((Cmp bareWorld (.object 1) (.object 2)).result = .ok (-1) ∧
      (Cmp bareWorld (.object 2) (.object 1)).result = .ok (-1)) ∧
    (Cmp selfWorld (.object 1) (.object 2)).calls
      = [⟨1, "__cmp", [.object 2, .bool true]⟩] :=
  ⟨(C22_cmp_objects bareWorld 1 2).2.2.2 rfl rfl (by decide),
   ((C22_cmp_objects selfWorld 1 2).1 (fun _ => .ok (.number (.fin ((1 : Nat) : ℚ)))) rfl).2⟩

/-- Every ordered pair of distinct kinds has an entry in the matrix, and it is -1 or 1. -/
theorem uneqMatrix_complete :
    ∀ a ∈ kinds, ∀ b ∈ kinds, a ≠ b →
      ((uneqMatrix.lookup a).bind (fun row => row.lookup b) = some (-1) ∨
       (uneqMatrix.lookup a).bind (fun row => row.lookup b) = some 1) ∧
      (uneqMatrixAt a b = -1 ∨ uneqMatrixAt a b = 1) := by
  decide

/-- C24: the cross-kind matrix is complete and never reports equality: it has a row for each
of the seven kinds and, in each row, an entry for each of the six other kinds (42 entries),
each of them -1 or 1; hence for values of different kinds to which no `__cmp` meta-method
applies `Cmp` is -1 or 1, never 0, and the lookup never falls back to the zero default. -/
theorem C24_matrix_complete :
    (uneqMatrix.map (fun row => row.1) = kinds) ∧
    (∀ row ∈ uneqMatrix, row.2.length = 6 ∧ row.1 ∉ row.2.map (fun e => e.1)) ∧
    (∀ a ∈ kinds, ∀ b ∈ kinds, a ≠ b →
      ((uneqMatrix.lookup a).bind (fun row => row.lookup b) = some (-1) ∨
       (uneqMatrix.lookup a).bind (fun row => row.lookup b) = some 1) ∧
      (uneqMatrixAt a b = -1 ∨ uneqMatrixAt a b = 1)) ∧
    (∀ (w : World) (l r : Val), TypeOf l ≠ TypeOf r →
      Val.defines w l "__cmp" = false → Val.defines w r "__cmp" = false →
      ((Cmp w l r).result = .ok (-1) ∨ (Cmp w l r).result = .ok 1) ∧
      (Cmp w l r).result ≠ .ok 0) := by
  refine ⟨by decide, by decide, uneqMatrix_complete, fun w l r hk hl hr => ?_⟩
  rw [Cmp_matrix_entry w l r hk hl hr]
  have h := (uneqMatrix_complete _ (TypeOf_mem_kinds l) _ (TypeOf_mem_kinds r) hk).2
  rcases h with h | h <;> rw [h] <;> simp

/-- C24 (witness): a bool against a function. -/
theorem C24_matrix_complete_witness :
    ((Cmp bareWorld (.bool true) (.func 0)).result = .ok (-1) ∨
      (Cmp bareWorld (.bool true) (.func 0)).result = .ok 1) ∧
    (Cmp bareWorld (.bool true) (.func 0)).result ≠ .ok 0 :=
  C24_matrix_complete.2.2.2 bareWorld (.bool true) (.func 0) (by decide) (by decide)
    (by decide)

/-- On values of kind nil, bool or string `Cmp` is the three-way comparison of the places. -/
theorem Cmp_by_place (w : World) (l r : Val) (hl : l.nilBoolOrString)
    (hr : r.nilBoolOrString) :
    (Cmp w l r).result
      = .ok (if l.place = r.place then 0 else if l.place < r.place then -1 else 1) := by
  unfold Val.nilBoolOrString at hl hr
  cases l <;> cases r <;> simp [TypeOf] at hl hr
  · rename_i a b
    rw [Cmp_strings]
    by_cases h1 : a = b
    · simp [h1]
    · by_cases h2 : a < b
      · simp [Val.place, h1, h2, Prod.Lex.lt_iff]
      · simp [Val.place, h1, h2, Prod.Lex.lt_iff]
  · rename_i a b
    rw [Cmp_matrix_entry w (.string a) (.bool b) (by simp [TypeOf]) rfl rfl]
    cases b <;> simp [Val.place, Prod.Lex.lt_iff, TypeOf] <;> decide
  · rename_i a
    rw [Cmp_matrix_entry w (.string a) .nil (by simp [TypeOf]) rfl rfl]
    simp [Val.place, Prod.Lex.lt_iff, TypeOf]
    decide
  · rename_i a b
    rw [Cmp_matrix_entry w (.bool a) (.string b) (by simp [TypeOf]) rfl rfl]
    cases a <;> simp [Val.place, Prod.Lex.lt_iff, TypeOf] <;> decide
  · rename_i a b
    cases a <;> cases b <;>
      simp [Cmp, TypeOf, cmpBool, Val_Bool, Bool_Bool, Outcome.pure, Val.place,
        Prod.Lex.lt_iff]
  · rename_i a
    rw [Cmp_matrix_entry w (.bool a) .nil (by simp [TypeOf]) rfl rfl]
    cases a <;> simp [Val.place, Prod.Lex.lt_iff, TypeOf] <;> decide
  · rename_i b
    rw [Cmp_matrix_entry w .nil (.string b) (by simp [TypeOf]) rfl rfl]
    simp [Val.place, Prod.Lex.lt_iff, TypeOf]
    decide
  · rename_i b
    rw [Cmp_matrix_entry w .nil (.bool b) (by simp [TypeOf]) rfl rfl]
    cases b <;> simp [Val.place, Prod.Lex.lt_iff, TypeOf] <;> decide
  · simp [Cmp, TypeOf, Outcome.ret]

/-- Values of kind nil, bool or string with the same place are the same value. -/
theorem place_injective (l r : Val) (hl : l.nilBoolOrString) (hr : r.nilBoolOrString)
    (h : l.place = r.place) : l = r := by
  unfold Val.nilBoolOrString at hl hr
  cases l <;> cases r <;> simp [TypeOf] at hl hr <;>
    first
      | rfl
      | (rename_i a b; cases a <;> cases b <;> simp_all [Val.place])
      | (rename_i a; cases a <;> simp_all [Val.place])

/-- C25: on values of kind nil, bool and string, same-kind and cross-kind pairs alike,
`Cmp` is a total order: `Cmp(l, r) = -Cmp(r, l)`; `Cmp(l, r) = 0` if and only if `l` and `r`
are the same value; and `Cmp(a, b) <= 0` with `Cmp(b, c) <= 0` implies `Cmp(a, c) <= 0`. -/
theorem C25_cmp_total_order (w : World) :
    (∀ l r : Val, l.nilBoolOrString → r.nilBoolOrString →
      ∃ n : Int, (Cmp w l r).result = .ok n ∧ (Cmp w r l).result = .ok (-n) ∧
        (n = 0 ↔ l = r)) ∧
    (∀ a b c : Val, a.nilBoolOrString → b.nilBoolOrString → c.nilBoolOrString →
      ∃ x y z : Int, (Cmp w a b).result = .ok x ∧ (Cmp w b c).result = .ok y ∧
        (Cmp w a c).result = .ok z ∧ (x ≤ 0 → y ≤ 0 → z ≤ 0)) := by
  constructor
  · intro l r hl hr
    refine ⟨_, Cmp_by_place w l r hl hr, ?_, ?_⟩
    · rw [Cmp_by_place w r l hr hl]
      rcases lt_trichotomy l.place r.place with h | h | h
      · simp [ne_of_lt h, ne_of_gt h, h, not_lt_of_gt h]
      · simp [h]
      · simp [ne_of_lt h, ne_of_gt h, h, not_lt_of_gt h]
    · constructor
      · intro h
        by_cases he : l.place = r.place
        · exact place_injective l r hl hr he
        · rw [if_neg he] at h
          split_ifs at h
          omega
      · rintro rfl
        simp
  · intro a b c ha hb hc
    refine ⟨_, _, _, Cmp_by_place w a b ha hb, Cmp_by_place w b c hb hc,
      Cmp_by_place w a c ha hc, ?_⟩
    have key : ∀ p q : ℕ ×ₗ String,
        (if p = q then (0 : Int) else if p < q then -1 else 1) ≤ 0 ↔ p ≤ q := by
      intro p q
      rcases lt_trichotomy p q with h | h | h
      · simp [ne_of_lt h, h, le_of_lt h]
      · simp [h]
      · simp [ne_of_gt h, not_lt_of_gt h, not_le_of_gt h]
    rw [key, key, key]
    exact le_trans

/-- C25 (witness): nil against a string, and nil, `false` and a string in a chain. -/
theorem C25_cmp_total_order_witness :
    (∃ n : Int, (Cmp bareWorld .nil (.string "a")).result = .ok n ∧
      (Cmp bareWorld (.string "a") .nil).result = .ok (-n) ∧
      (n = 0 ↔ Val.nil = Val.string "a")) ∧
    (∃ x y z : Int, (Cmp bareWorld .nil (.bool false)).result = .ok x ∧
      (Cmp bareWorld (.bool false) (.string "a")).result = .ok y ∧
      (Cmp bareWorld .nil (.string "a")).result = .ok z ∧ (x ≤ 0 → y ≤ 0 → z ≤ 0)) :=
  ⟨(C25_cmp_total_order bareWorld).1 .nil (.string "a") (Or.inl rfl) (Or.inr (Or.inr rfl)),
   (C25_cmp_total_order bareWorld).2 .nil (.bool false) (.string "a") (Or.inl rfl)
     (Or.inr (Or.inl rfl)) (Or.inr (Or.inr rfl))⟩

/-- C7: `Unm` of a number returns the number of the negated magnitude (a finite `q` gives
`-q`, an infinity the opposite infinity, so `Unm(5) = -5`); of an object defining `__unm`,
what that meta-method yields when called without arguments; of anything else (nil, bool,
string, func, custom, or an object without `__unm`) it raises the one-type `TypeError`
"type error: unm not allowed with type <Type(l)>". -/
theorem C7_unm (w : World) :
    ((∀ q : ℚ, (Unm w (.number (.fin q))).result = .ok (.number (.fin (-q)))) ∧
      (∀ neg : Bool, (Unm w (.number (.inf neg))).result = .ok (.number (.inf (!neg)))) ∧
      (Unm w (.number .nan)).result = .ok (.number .nan) ∧
      (Unm w (.number (.fin 5))).result = .ok (.number (.fin (-5))) ∧
      (∀ f, (Unm w (.number f)).result = .ok (.number (F64.neg (Number_Float f))) ∧
        (Unm w (.number f)).calls = [])) ∧
    (∀ lo g, w.metaMethod lo "__unm" = some g →
      (Unm w (.object lo)).result = g [] ∧
      (Unm w (.object lo)).calls = [⟨lo, "__unm", []⟩]) ∧
    (∀ l, TypeOf l ≠ "number" → Val.defines w l "__unm" = false →
      (Unm w l).result = .error (.typeError (NewTypeError (TypeOf l) "" "unm")) ∧
      (NewTypeError (TypeOf l) "" "unm").Error
        = "type error: unm not allowed with type " ++ TypeOf l) := by
  have hnum : ∀ f, (Unm w (.number f)).result = .ok (.number (F64.neg (Number_Float f))) ∧
      (Unm w (.number f)).calls = [] := by
    intro f
    simp [Unm, TypeOf, Val_Float, Outcome.ret]
  refine ⟨⟨fun q => ?_, fun neg => ?_, ?_, ?_, hnum⟩, fun lo g hg => ?_,
    fun l hn hd => ⟨?_, ?_⟩⟩
  · rw [(hnum _).1]; rfl
  · rw [(hnum _).1]; rfl
  · rw [(hnum _).1]; rfl
  · rw [(hnum _).1]; rfl
  · simp [Unm, TypeOf, asObject, callMetaMethod, hg]
  · cases l <;>
      simp_all [Unm, TypeOf, asObject, callMetaMethod, Val.defines, Outcome.fail]
  · simp [NewTypeError, TypeError.Error]

/-- C7 (witness): unary minus of the number 5, of a string, and of an object defining
`__unm`. -/
theorem C7_unm_witness :
    (Unm bareWorld (.number (.fin 5))).result = .ok (.number (.fin (-5))) ∧
    (Unm bareWorld (.string "a")).result
      = .error (.typeError (NewTypeError (TypeOf (.string "a")) "" "unm")) ∧
    (Unm (worldWith 1 "__unm" (.number (.fin 5))) (.object 1)).result
      = .ok (.number (.fin 5)) :=
  ⟨(C7_unm bareWorld).1.2.2.2.1,
   ((C7_unm bareWorld).2.2 (.string "a") (by decide) (by decide)).1,
   ((C7_unm (worldWith 1 "__unm" (.number (.fin 5)))).2.1 1
      (fun _ => .ok (.number (.fin 5))) (by simp [worldWith])).1⟩

/-- When no operand is an object defining `__cmp`, a result that `Cmp` returns is one of
-1, 0 and 1. -/
theorem Cmp_range_without_meta (w : World) (l r : Val)
    (hl : Val.defines w l "__cmp" = false) (hr : Val.defines w r "__cmp" = false)
    (n : Int) (hn : (Cmp w l r).result = .ok n) : n = -1 ∨ n = 0 ∨ n = 1 := by
  have key : (∃ p, (Cmp w l r).result = .error p) ∨ (Cmp w l r).result = .ok (-1) ∨
      (Cmp w l r).result = .ok 0 ∨ (Cmp w l r).result = .ok 1 := by
    clear hn
    cases l <;> cases r <;>
      simp_all [Cmp, cmpUneq, cmpObject, cmpNumber, cmpString, cmpBool, cmpFunc, cmpCustom,
        hostEq, TypeOf, asObject, callMetaMethod, Val.defines, Val_Float, Val_String,
        Val_Bool, Outcome.ret, Outcome.pure, Outcome.fail, Except.map] <;>
      first
        | decide
        | (split_ifs <;> first | tauto | simp_all)
    exact or_iff_not_imp_left.mpr (fun h => Or.inl (not_not.mp h))
  rcases key with ⟨p, hp⟩ | h | h | h
  · rw [hp] at hn; exact absurd hn (by simp)
  · rw [h] at hn; simp only [Except.ok.injEq] at hn; omega
  · rw [h] at hn; simp only [Except.ok.injEq] at hn; omega
  · rw [h] at hn; simp only [Except.ok.injEq] at hn; omega

/-- For operands neither of which is an object, and that are not two host values of one
dynamic type that Go cannot compare, `Cmp` returns a result without invoking a
meta-method. -/
theorem Cmp_returns_without_objects (w : World) (l r : Val)
    (hl : TypeOf l ≠ "object") (hr : TypeOf r ≠ "object")
    (hc : ∀ a b, l = .custom a → r = .custom b → w.hostType a = w.hostType b →
      w.typeComparable (w.hostType a) = true) :
    (∃ n, (Cmp w l r).result = .ok n) ∧ (Cmp w l r).calls = [] := by
  cases l <;> cases r <;>
    simp_all [Cmp, cmpUneq, cmpNumber, cmpString, cmpBool, cmpCustom, hostEq, TypeOf,
      Val_Float, Val_String, Val_Bool, Outcome.ret, Outcome.pure, Outcome.fail, Except.map]
  rename_i a b
  by_cases h : w.hostType a = w.hostType b
  · simp [h, hc h, Outcome.ret]
  · simp [h, Outcome.ret]

/-- C23 (the code at the failing input): `Cmp` of two host values of a slice type, neither
an object, does not return: the comparison `l == r` of the case "custom" panics with a
run-time error, for one value against itself as for two values. -/
theorem C23_cmp_uncomparable_custom :
    TypeOf (.custom 1) = "custom" ∧
    (Cmp sliceWorld (.custom 1) (.custom 1)).result
      = .error (.runtimeError "runtime error: comparing uncomparable type") ∧
    (Cmp sliceWorld (.custom 1) (.custom 2)).result
      = .error (.runtimeError "runtime error: comparing uncomparable type") ∧
    ¬ ∃ n, (Cmp sliceWorld (.custom 1) (.custom 1)).result = .ok n := by
  have h1 : (Cmp sliceWorld (.custom 1) (.custom 1)).result
      = .error (.runtimeError "runtime error: comparing uncomparable type") := by
    simp [Cmp, TypeOf, cmpCustom, hostEq, sliceWorld, bareWorld, Outcome.fail]
  have h2 : (Cmp sliceWorld (.custom 1) (.custom 2)).result
      = .error (.runtimeError "runtime error: comparing uncomparable type") := by
    simp [Cmp, TypeOf, cmpCustom, hostEq, sliceWorld, bareWorld, Outcome.fail]
  refine ⟨by decide, h1, h2, ?_⟩
  rintro ⟨n, hn⟩
  rw [h1] at hn
  exact absurd hn (by simp)

/-- Go `<` on two numbers that are not NaN is the order of the magnitudes. -/
theorem F64_lt_iff_magnitude (l r : F64) (hl : l ≠ .nan) (hr : r ≠ .nan) :
    F64.lt l r = true ↔ l.magnitude < r.magnitude := by
  have htop : ∀ q : ℚ, ((q : WithTop ℚ) : WithBot (WithTop ℚ)) < ⊤ := fun q => by
    rw [← WithBot.coe_top]
    exact WithBot.coe_lt_coe.mpr (WithTop.coe_lt_top q)
  have hnot : ∀ q : ℚ, ¬ (⊤ : WithBot (WithTop ℚ)) < ((q : WithTop ℚ) : WithBot (WithTop ℚ)) :=
    fun q => not_lt_of_gt (htop q)
  have hbt : (⊥ : WithBot (WithTop ℚ)) < ⊤ := by
    rw [← WithBot.coe_top]
    exact WithBot.bot_lt_coe _
  cases l with
  | nan => exact absurd rfl hl
  | inf a =>
    cases r with
    | nan => exact absurd rfl hr
    | inf b => cases a <;> cases b <;> simp [F64.lt, F64.magnitude, hbt]
    | fin q => cases a <;> simp [F64.lt, F64.magnitude, hnot]
  | fin p =>
    cases r with
    | nan => exact absurd rfl hr
    | inf b => cases b <;> simp [F64.lt, F64.magnitude, htop]
    | fin q => simp [F64.lt, F64.magnitude]

/-- C9 (amended): for two operands of the same primitive kind `Cmp` follows the natural
ordering: `Cmp(Nil, Nil) = 0`; for bools it is 0 when equal, 1 for true against false and -1
for false against true; for strings (lexicographic order of the texts, which is the
byte-wise order of their encodings), and for numbers neither of which is NaN (order of
magnitude: of the rationals for finite numbers, the infinities at the two ends), it is 0
iff `l = r`, -1 iff `l < r` and 1 iff `l > r`; so `Cmp(1, 2) = -1` and `Cmp(2, 1) = 1`. -/
theorem C9_cmp_same_kind (w : World) :
    (Cmp w .nil .nil).result = .ok 0 ∧
    ((∀ b, (Cmp w (.bool b) (.bool b)).result = .ok 0) ∧
      (Cmp w (.bool true) (.bool false)).result = .ok 1 ∧
      (Cmp w (.bool false) (.bool true)).result = .ok (-1)) ∧
    (∀ a b : String,
      ((Cmp w (.string a) (.string b)).result = .ok 0 ↔ a = b) ∧
      ((Cmp w (.string a) (.string b)).result = .ok (-1) ↔ a < b) ∧
      ((Cmp w (.string a) (.string b)).result = .ok 1 ↔ b < a)) ∧
    (∀ l r : F64, l ≠ .nan → r ≠ .nan →
      ((Cmp w (.number l) (.number r)).result = .ok 0 ↔ l = r) ∧
      ((Cmp w (.number l) (.number r)).result = .ok (-1) ↔ l.magnitude < r.magnitude) ∧
      ((Cmp w (.number l) (.number r)).result = .ok 1 ↔ r.magnitude < l.magnitude)) ∧
    (∀ p q : ℚ,
      ((Cmp w (.number (.fin p)) (.number (.fin q))).result = .ok 0 ↔ p = q) ∧
      ((Cmp w (.number (.fin p)) (.number (.fin q))).result = .ok (-1) ↔ p < q) ∧
      ((Cmp w (.number (.fin p)) (.number (.fin q))).result = .ok 1 ↔ q < p)) ∧
    (∀ q : ℚ,
      (Cmp w (.number (.inf true)) (.number (.fin q))).result = .ok (-1) ∧
      (Cmp w (.number (.fin q)) (.number (.inf true))).result = .ok 1 ∧
      (Cmp w (.number (.fin q)) (.number (.inf false))).result = .ok (-1) ∧
      (Cmp w (.number (.inf false)) (.number (.fin q))).result = .ok 1) ∧
    ((Cmp w (.number (.inf true)) (.number (.inf false))).result = .ok (-1) ∧
      (Cmp w (.number (.inf false)) (.number (.inf true))).result = .ok 1 ∧
      (∀ neg, (Cmp w (.number (.inf neg)) (.number (.inf neg))).result = .ok 0)) ∧
    ((Cmp w (.number (.fin 1)) (.number (.fin 2))).result = .ok (-1) ∧
      (Cmp w (.number (.fin 2)) (.number (.fin 1))).result = .ok 1 ∧
      (Cmp w (.number (.fin 2)) (.number (.fin 2))).result = .ok 0) := by
  have hnum : ∀ l r : F64, l ≠ .nan → r ≠ .nan →
      ((Cmp w (.number l) (.number r)).result = .ok 0 ↔ l = r) ∧
      ((Cmp w (.number l) (.number r)).result = .ok (-1) ↔ l.magnitude < r.magnitude) ∧
      ((Cmp w (.number l) (.number r)).result = .ok 1 ↔ r.magnitude < l.magnitude) := by
    intro l r hl hr
    rw [Cmp_numbers, ← F64_lt_iff_magnitude l r hl hr, ← F64_lt_iff_magnitude r l hr hl]
    by_cases he : l = r
    · subst he
      have h1 : F64.eq l l = true := (F64_eq_iff l l hl hl).mpr rfl
      simp [h1, F64_lt_irrefl]
    · have h1 : F64.eq l r = false := by
        rw [← Bool.not_eq_true]
        exact fun h => he ((F64_eq_iff l r hl hr).mp h)
      rcases F64_lt_or_gt l r hl hr he with h | h
      · have h2 := F64_lt_asymm l r h
        simp [h1, h, h2, he]
      · have h2 := F64_lt_asymm r l h
        simp [h1, h, h2, he]
  have hfin : ∀ p q : ℚ,
      ((Cmp w (.number (.fin p)) (.number (.fin q))).result = .ok 0 ↔ p = q) ∧
      ((Cmp w (.number (.fin p)) (.number (.fin q))).result = .ok (-1) ↔ p < q) ∧
      ((Cmp w (.number (.fin p)) (.number (.fin q))).result = .ok 1 ↔ q < p) := by
    intro p q
    obtain ⟨h0, h1, h2⟩ := hnum (.fin p) (.fin q) (by simp) (by simp)
    refine ⟨h0.trans (by simp), h1.trans (by simp [F64.magnitude]),
      h2.trans (by simp [F64.magnitude])⟩
  refine ⟨?_, ⟨?_, ?_, ?_⟩, ?_, hnum, hfin, ?_, ⟨?_, ?_, ?_⟩, ⟨?_, ?_, ?_⟩⟩
  · simp [Cmp, TypeOf, Outcome.ret]
  · intro b
    simp [Cmp, TypeOf, cmpBool, Val_Bool, Bool_Bool, Outcome.pure]
  · simp [Cmp, TypeOf, cmpBool, Val_Bool, Bool_Bool, Outcome.pure]
  · simp [Cmp, TypeOf, cmpBool, Val_Bool, Bool_Bool, Outcome.pure]
  · intro a b
    rw [Cmp_strings]
    rcases lt_trichotomy a b with h | h | h
    · have hne : a ≠ b := ne_of_lt h
      have hba : ¬ b < a := lt_asymm h
      simp [hne, h, hba]
    · subst h
      simp
    · have hne : a ≠ b := ne_of_gt h
      have hab : ¬ a < b := lt_asymm h
      simp [hne, h, hab]
  · intro q
    refine ⟨?_, ?_, ?_, ?_⟩ <;> rw [Cmp_numbers] <;> simp [F64.eq, F64.lt]
  · rw [Cmp_numbers]; simp [F64.eq, F64.lt]
  · rw [Cmp_numbers]; simp [F64.eq, F64.lt]
  · intro neg
    rw [Cmp_numbers]; simp [F64.eq, F64.lt]
  · exact (hfin 1 2).2.1.mpr (by norm_num)
  · exact (hfin 2 1).2.2.mpr (by norm_num)
  · exact (hfin 2 2).1.mpr rfl

/-- C9 (amended, witness): the numbers 1 and 2, neither a NaN, compare as -1. -/
theorem C9_cmp_same_kind_witness :
    (Cmp bareWorld (.number (.fin 1)) (.number (.fin 2))).result = .ok (-1) :=
  ((C9_cmp_same_kind bareWorld).2.2.2.1 (.fin 1) (.fin 2) (by simp) (by simp)).2.1.mpr
    (by simp [F64.magnitude])

/-- On a text that is not a well-formed floating-point literal `ParseFloat` fails with the
syntax error, in every world. -/
theorem ParseFloat_of_not_literal (w : World) (s : String) (h : floatLiteral s = false) :
    ParseFloat w s = .error .syntaxErr := by
  unfold floatLiteral at h
  unfold ParseFloat
  cases hs : special s.toList with
  | some vn =>
    obtain ⟨val, n⟩ := vn
    rw [hs] at h
    simp only [decide_eq_false_iff_not] at h
    simp only [ne_eq, h, not_false_eq_true, if_true]
  | none =>
    rw [hs] at h
    cases hr : readFloat s.toList with
    | none => rfl
    | some n =>
      rw [hr] at h
      simp only [decide_eq_false_iff_not] at h
      simp only [ne_eq, h, not_false_eq_true, if_true]

/-- A panic of `String.Float` carries the error of `ParseFloat`. -/
theorem String_Float_error (w : World) (s : String) (p : Panic)
    (h : String_Float w s = .error p) : ∃ e, p = .numError "ParseFloat" s e := by
  unfold String_Float at h
  cases hp : ParseFloat w s with
  | error e =>
    rw [hp] at h
    simp only [Except.error.injEq] at h
    exact ⟨e, h.symm⟩
  | ok f =>
    rw [hp] at h
    exact absurd h (by simp)

/-- A panic of `String.Int` carries the error of `ParseInt`. -/
theorem String_Int_error (s : String) (p : Panic)
    (h : String_Int s = .error p) : ∃ e, p = .numError "ParseInt" s e := by
  unfold String_Int at h
  cases hp : ParseInt s with
  | error e =>
    rw [hp] at h
    simp only [Except.error.injEq] at h
    exact ⟨e, h.symm⟩
  | ok n =>
    rw [hp] at h
    exact absurd h (by simp)

/-- C16 (amended): when `String.Int` or `String.Float` is applied to a text that is not a
valid numeric literal (for example "", "a9", or "-999.23" parsed as an integer), it panics,
and the panic carries the error returned by `strconv.ParseInt` or `strconv.ParseFloat`, a
`*strconv.NumError` naming the function and the text; it is never a `TypeError`. -/
theorem C16_parse_error_payload :
    (∀ s, (¬ ∃ n, signedLiteral s n ∧ -(2 : Int) ^ 63 ≤ n ∧ n < (2 : Int) ^ 63) →
      ∃ e, String_Int s = .error (.numError "ParseInt" s e)) ∧
    (∀ (w : World) s, floatLiteral s = false →
      String_Float w s = .error (.numError "ParseFloat" s .syntaxErr)) ∧
    (∀ s p, String_Int s = .error p →
      (∃ e, p = .numError "ParseInt" s e) ∧ p.isTypeError = false) ∧
    (∀ (w : World) s p, String_Float w s = .error p →
      (∃ e, p = .numError "ParseFloat" s e) ∧ p.isTypeError = false) ∧
    (String_Int "" = .error (.numError "ParseInt" "" .syntaxErr) ∧
      String_Int "a9" = .error (.numError "ParseInt" "a9" .syntaxErr) ∧
      String_Int "-999.23" = .error (.numError "ParseInt" "-999.23" .syntaxErr)) ∧
    (∀ w : World,
      String_Float w "" = .error (.numError "ParseFloat" "" .syntaxErr) ∧
      String_Float w "a9" = .error (.numError "ParseFloat" "a9" .syntaxErr) ∧
      String_Float w "not a number"
        = .error (.numError "ParseFloat" "not a number" .syntaxErr)) ∧
    (floatLiteral "" = false ∧ floatLiteral "a9" = false ∧ floatLiteral "1e" = false ∧
      floatLiteral "-999.23" = true ∧ floatLiteral "1e2" = true ∧
      floatLiteral "0.000" = true ∧ floatLiteral "17" = true) := by
  have hf : ∀ (w : World) s, floatLiteral s = false →
      String_Float w s = .error (.numError "ParseFloat" s .syntaxErr) := by
    intro w s h
    simp [String_Float, ParseFloat_of_not_literal w s h]
  refine ⟨fun s hs => ?_, hf, fun s p h => ?_, fun w s p h => ?_, ⟨rfl, rfl, rfl⟩,
    fun w => ⟨hf w _ (by decide), hf w _ (by decide), hf w _ (by decide)⟩,
    by decide⟩
  · cases hp : ParseInt s with
    | error e => exact ⟨e, by simp [String_Int, hp]⟩
    | ok n => exact absurd ⟨n, (ParseInt_ok_iff s n).mp hp⟩ hs
  · obtain ⟨e, rfl⟩ := String_Int_error s p h
    exact ⟨⟨e, rfl⟩, rfl⟩
  · obtain ⟨e, rfl⟩ := String_Float_error w s p h
    exact ⟨⟨e, rfl⟩, rfl⟩

/-- C16 (amended, witness): `String.Float` on "a9", which is not a floating-point literal,
and the payload of `String.Int` on "a9". -/
theorem C16_parse_error_payload_witness :
    String_Float bareWorld "a9" = .error (.numError "ParseFloat" "a9" .syntaxErr) ∧
    ((∃ e, Panic.numError "ParseInt" "a9" .syntaxErr = .numError "ParseInt" "a9" e) ∧
      Panic.isTypeError (.numError "ParseInt" "a9" .syntaxErr) = false) :=
  ⟨C16_parse_error_payload.2.1 bareWorld "a9" (by decide),
   C16_parse_error_payload.2.2.1 "a9" (.numError "ParseInt" "a9" .syntaxErr) rfl⟩

end Agora
